/-
Formal model of the Galton board simulation (`src/GaltonBoard.py`,
class `GaltonBoardSimulation`) and proofs about its path generator,
animation scheduler, statistics aggregation and UI input handling.

Modelling conventions:
* Python floats are modelled as exact numbers: configuration values,
  slider values and the inter-admission delay counter as `ℚ`; ball
  coordinates (which flow through `math.sqrt`) as `ℝ`.
* `np.random.random()` is modelled as an ambient sample stream
  `rand : ℕ → ℚ`, consumed sequentially exactly as the source does
  (ball `b`, row `r` reads sample `b * n_rows + r`).
* Python list indexing `xs[i]` is modelled by `List.getD i` and
  `xs[-1]` by `List.getLastD`; the source raises `IndexError` where the
  default of `getD`/`getLastD` would be consulted, and every theorem
  below works under hypotheses (`1 ≤ n_rows`, reachability from a
  `start_animation`) that keep those defaults unreachable.
* Only the simulation state is modelled: pygame surfaces, fonts, the
  cached plot image (`plot_surface`), the `dragging` widget id and the
  unused `animation_delay` attribute are rendering/input plumbing with
  no effect on the modelled fields.
-/
import Mathlib

namespace GaltonBoard

/-! ## Path generator (`generate_ball_paths`, source lines 210-220)

For each ball the source walks `n_rows` rows, incrementing `position`
when `np.random.random() < self.probability`, and appends the running
`position` after every row. -/

/-- The inner row loop of `generate_ball_paths`: starting from sample
index `idx` and cumulative position `pos`, produce the list of
cumulative rightward-deflection counts for the remaining rows. -/
def path_loop (p : ℚ) (rand : ℕ → ℚ) : ℕ → ℕ → ℕ → List ℕ
  | _, _, 0 => []
  | idx, pos, rows + 1 =>
    let pos' := if rand idx < p then pos + 1 else pos
    pos' :: path_loop p rand (idx + 1) pos' rows

/-- Number of successful Bernoulli trials among the `k` samples starting
at stream index `start` (success = sample strictly below `p`). -/
def succ_count (p : ℚ) (rand : ℕ → ℚ) : ℕ → ℕ → ℕ
  | _, 0 => 0
  | start, k + 1 =>
    (if rand start < p then 1 else 0) + succ_count p rand (start + 1) k

/-- `generate_ball_paths` as a pure function of the sample stream:
one path per ball, ball `b` consuming samples `b*rows .. b*rows+rows-1`. -/
def generate_ball_paths_fn (nBalls nRows : ℕ) (p : ℚ) (rand : ℕ → ℚ) :
    List (List ℕ) :=
  (List.range nBalls).map fun b => path_loop p rand (b * nRows) 0 nRows

theorem path_loop_length (p : ℚ) (rand : ℕ → ℚ) :
    ∀ rows idx pos, (path_loop p rand idx pos rows).length = rows := by
  intro rows
  induction rows with
  | zero => intro idx pos; rfl
  | succ n ih => intro idx pos; simp [path_loop, ih]

theorem path_loop_getD (p : ℚ) (rand : ℕ → ℚ) :
    ∀ rows r idx pos, r < rows →
      (path_loop p rand idx pos rows).getD r 0 =
        pos + succ_count p rand idx (r + 1) := by
  intro rows
  induction rows with
  | zero => intro r idx pos h; omega
  | succ n ih =>
    intro r idx pos h
    match r with
    | 0 =>
      simp only [path_loop, succ_count, List.getD_cons_zero]
      split <;> omega
    | r + 1 =>
      have hr : r < n := by omega
      simp only [path_loop, List.getD_cons_succ]
      rw [ih r (idx + 1) _ hr]
      simp only [succ_count]
      split <;> omega

theorem succ_count_le (p : ℚ) (rand : ℕ → ℚ) :
    ∀ k start, succ_count p rand start k ≤ k := by
  intro k
  induction k with
  | zero => intro start; simp [succ_count]
  | succ n ih =>
    intro start
    simp only [succ_count]
    have := ih (start + 1)
    split <;> omega

theorem succ_count_mono (p : ℚ) (rand : ℕ → ℚ) :
    ∀ k k' start, k ≤ k' →
      succ_count p rand start k ≤ succ_count p rand start k' := by
  intro k
  induction k with
  | zero => intro k' start _; simp [succ_count]
  | succ n ih =>
    intro k' start h
    match k' with
    | 0 => omega
    | m + 1 =>
      simp only [succ_count]
      have := ih m (start + 1) (by omega)
      omega

theorem getLastD_ne_nil {α : Type} (l : List α) (a b : α) (h : l ≠ []) :
    l.getLastD a = l.getLastD b := by
  match l with
  | [] => exact absurd rfl h
  | x :: xs => rw [List.getLastD_cons, List.getLastD_cons]

theorem path_loop_getLastD (p : ℚ) (rand : ℕ → ℚ) :
    ∀ rows idx pos, 0 < rows →
      (path_loop p rand idx pos rows).getLastD 0 =
        pos + succ_count p rand idx rows := by
  intro rows
  induction rows with
  | zero => intro idx pos h; omega
  | succ n ih =>
    intro idx pos _
    simp only [path_loop, List.getLastD_cons]
    match n with
    | 0 =>
      simp only [path_loop, succ_count, List.getLastD]
      split <;> omega
    | m + 1 =>
      rw [getLastD_ne_nil _ _ 0 (by
        intro hnil
        have := path_loop_length p rand (m + 1) (idx + 1)
          (if rand idx < p then pos + 1 else pos)
        rw [hnil] at this
        simp at this)]
      rw [ih (idx + 1) _ (by omega)]
      simp only [succ_count]
      split <;> omega

theorem generate_ball_paths_fn_length (nBalls nRows : ℕ) (p : ℚ)
    (rand : ℕ → ℚ) :
    (generate_ball_paths_fn nBalls nRows p rand).length = nBalls := by
  simp [generate_ball_paths_fn]

theorem generate_ball_paths_fn_mem (nBalls nRows : ℕ) (p : ℚ) (rand : ℕ → ℚ)
    {path : List ℕ} (h : path ∈ generate_ball_paths_fn nBalls nRows p rand) :
    ∃ b < nBalls, path = path_loop p rand (b * nRows) 0 nRows := by
  simp only [generate_ball_paths_fn, List.mem_map, List.mem_range] at h
  obtain ⟨b, hb, rfl⟩ := h
  exact ⟨b, hb, rfl⟩

/-- Every value in a generated path is at most the number of rows
(`n_rows`), hence a valid bin index for a histogram of `n_rows + 1` bins. -/
theorem path_loop_mem_le (p : ℚ) (rand : ℕ → ℚ) :
    ∀ rows idx pos, ∀ v ∈ path_loop p rand idx pos rows, v ≤ pos + rows := by
  intro rows
  induction rows with
  | zero => intro idx pos v hv; simp [path_loop] at hv
  | succ n ih =>
    intro idx pos v hv
    simp only [path_loop, List.mem_cons] at hv
    rcases hv with rfl | hv
    · split <;> omega
    · have := ih (idx + 1) (if rand idx < p then pos + 1 else pos) v hv
      split at this <;> omega

/-- **C1.** `generate_ball_paths(ballCount, rowCount, probability)`: for
every produced path (any ball count ≥ 1, row count ≥ 1, probability in
[0,1], any sample stream) the path has exactly `rowCount` entries, the
entry at index `r` is the number of successful Bernoulli trials among
that ball's first `r + 1` trials, entries are non-decreasing, the entry
at index `r` is at most `r + 1`, and the final entry lies in
`[0, rowCount]`. -/
theorem c1_generate_ball_paths_spec (ballCount rowCount : ℕ) (p : ℚ)
    (rand : ℕ → ℚ) (hb : 1 ≤ ballCount) (hr : 1 ≤ rowCount)
    (hp0 : 0 ≤ p) (hp1 : p ≤ 1) :
    ∀ path ∈ generate_ball_paths_fn ballCount rowCount p rand,
      path.length = rowCount ∧
      (∃ b < ballCount, ∀ r < rowCount,
        path.getD r 0 = succ_count p rand (b * rowCount) (r + 1)) ∧
      (∀ r r', r ≤ r' → r' < rowCount → path.getD r 0 ≤ path.getD r' 0) ∧
      (∀ r < rowCount, path.getD r 0 ≤ r + 1) ∧
      path.getLastD 0 ≤ rowCount := by
  intro path hpath
  obtain ⟨b, hblt, rfl⟩ := generate_ball_paths_fn_mem _ _ _ _ hpath
  refine ⟨path_loop_length p rand rowCount _ 0, ⟨b, hblt, ?_⟩, ?_, ?_, ?_⟩
  · intro r hrlt
    rw [path_loop_getD p rand rowCount r _ 0 hrlt]
    omega
  · intro r r' hle hlt
    rw [path_loop_getD p rand rowCount r _ 0 (by omega),
      path_loop_getD p rand rowCount r' _ 0 hlt]
    have := succ_count_mono p rand (r + 1) (r' + 1) (b * rowCount) (by omega)
    omega
  · intro r hrlt
    rw [path_loop_getD p rand rowCount r _ 0 hrlt]
    have := succ_count_le p rand (r + 1) (b * rowCount)
    omega
  · rw [path_loop_getLastD p rand rowCount _ 0 (by omega)]
    have := succ_count_le p rand rowCount (b * rowCount)
    omega

/-- Witness for C1 at a concrete input: two balls, three rows,
probability 1/2, alternating sample stream. -/
theorem c1_witness :
    (1 ≤ 2 ∧ 1 ≤ 3 ∧ (0 : ℚ) ≤ 1/2 ∧ (1/2 : ℚ) ≤ 1) ∧
    (∀ path ∈ generate_ball_paths_fn 2 3 (1/2)
        (fun i => if i % 2 = 0 then 0 else 1),
      path.length = 3 ∧
      (∃ b < 2, ∀ r < 3,
        path.getD r 0 = succ_count (1/2) (fun i => if i % 2 = 0 then 0 else 1)
          (b * 3) (r + 1)) ∧
      (∀ r r', r ≤ r' → r' < 3 → path.getD r 0 ≤ path.getD r' 0) ∧
      (∀ r < 3, path.getD r 0 ≤ r + 1) ∧
      path.getLastD 0 ≤ 3) :=
  ⟨⟨by norm_num, by norm_num, by norm_num, by norm_num⟩,
    c1_generate_ball_paths_spec 2 3 (1/2) _ (by norm_num) (by norm_num)
      (by norm_num) (by norm_num)⟩

/-! ## Board geometry (`precalculate_positions`, `clamp_position`)

Layout constants from `__init__`: board area `x=300, y=100` (header 60 +
40), `width=600, height=480`, `board_margin=20`.  The peg/bin position
dictionaries built by `precalculate_positions` are a pure function of
the row count current at the time of the call; the state records that
row count as `geom_n_rows` and positions are looked up on demand. -/

/-- `peg_positions[(row, col)]` as computed by `precalculate_positions`:
rational spacing, clamped into the safe area, truncated to `int`. -/
def pegPosition (g row col : ℕ) : ℤ × ℤ :=
  let sx : ℚ := 560 / (g + 1)
  let sy : ℚ := 360 / (g + 1)
  let x : ℚ := 320 + (560 - row * sx) / 2 + col * sx
  let y : ℚ := 160 + row * sy
  (⌊max 320 (min x 880)⌋, ⌊max 120 (min y 480)⌋)

/-- `bin_positions[bin_num]` as computed by `precalculate_positions`. -/
def binPosition (g b : ℕ) : ℤ × ℤ :=
  let sx : ℚ := 560 / (g + 1)
  let x : ℚ := 320 + (560 - g * sx) / 2 + b * sx
  (⌊max 320 (min x 880)⌋, 520)

/-- `get_peg_position` (source lines 266-268): dictionary lookup with the
board-centre default `(600, 120)` for a missing key; the key `(row, col)`
is present exactly when `row < geom_n_rows` and `col ≤ row`. -/
def get_peg_position (g row col : ℕ) : ℤ × ℤ :=
  if row < g ∧ col ≤ row then pegPosition g row col else (600, 120)

/-- `get_bin_position` (source lines 270-274): valid bins are
`0 .. geom_n_rows`; out-of-range indices fall back to `(600, 520)`. -/
def get_bin_position (g b : ℕ) : ℤ × ℤ :=
  if b ≤ g then binPosition g b else (600, 520)

/-- `clamp_position` (source lines 276-294): clamp into
`[320, 880] × [120, 560]`, then recentre to `(600, 340)` if the clamped
point is within 10px of the board edge (dead code given the clamp
bounds, modelled faithfully). -/
noncomputable def clamp_position (x y : ℝ) : ℝ × ℝ :=
  let cx := max 320 (min x 880)
  let cy := max 120 (min y 560)
  if cx ≤ 310 ∨ 890 ≤ cx ∨ cy ≤ 110 ∨ 570 ≤ cy then (600, 340) else (cx, cy)

/-! ## Simulation state -/

/-- One entry of `self.balls_in_flight`: the list
`[ball_index, current_row, x, y, target_x, target_y]`. -/
structure FlightBall where
  index : ℕ
  currentRow : ℕ
  x : ℝ
  y : ℝ
  targetX : ℝ
  targetY : ℝ

/-- The mutable simulation state of `GaltonBoardSimulation` (rendering
caches and pygame objects omitted, see the header comment). -/
structure State where
  n_balls : ℕ
  n_rows : ℕ
  probability : ℚ
  ball_speed : ℚ
  max_simultaneous_balls : ℕ
  plot_update_counter : ℕ
  plot_update_interval : ℕ
  ball_paths : List (List ℕ)
  balls_in_flight : List FlightBall
  balls_dropped : ℕ
  delay_counter : ℚ
  ball_falling : Bool
  paused : Bool
  stopped : Bool
  positions : List ℕ
  bins_count : List ℕ
  balls_completed : ℕ
  observed_mean : ℝ
  observed_std : ℝ
  theoretical_mean : ℚ
  theoretical_std : ℝ
  simulation_complete : Bool
  plot_needs_update : Bool
  geom_n_rows : ℕ
  slider_balls : ℚ
  slider_rows : ℚ
  slider_prob : ℚ
  slider_speed : ℚ
  slider_multi : ℚ

attribute [ext] State

/-- `np.mean` over the recorded outcome list. -/
noncomputable def list_mean (l : List ℕ) : ℝ :=
  (l.map (fun n => (n : ℝ))).sum / l.length

/-- `np.std` (population standard deviation) over the outcome list. -/
noncomputable def list_std (l : List ℕ) : ℝ :=
  Real.sqrt ((l.map (fun n => ((n : ℝ) - list_mean l) ^ 2)).sum / l.length)

/-- `update_bins_array_size` (source lines 154-161): when the histogram
length differs from `n_rows + 1`, rebuild it at the new size copying the
overlapping prefix and zero-filling the rest. -/
def update_bins_array_size (s : State) : State :=
  let newSize := s.n_rows + 1
  if s.bins_count.length ≠ newSize then
    { s with bins_count :=
        s.bins_count.take newSize ++
          List.replicate (newSize - s.bins_count.length) 0 }
  else s

/-- `precalculate_positions` (source lines 163-203): resizes the bins
array and rebuilds the position dictionaries from the current `n_rows`. -/
def precalculate_positions (s : State) : State :=
  let s := update_bins_array_size s
  { s with geom_n_rows := s.n_rows }

/-- `calculate_theoretical_values` (source lines 205-208). -/
noncomputable def calculate_theoretical_values (s : State) : State :=
  { s with
    theoretical_mean := s.n_rows * s.probability,
    theoretical_std :=
      Real.sqrt ((s.n_rows : ℝ) * (s.probability : ℝ) * (1 - s.probability)) }

/-- `generate_ball_paths` (source lines 210-220) at the state level. -/
def generate_ball_paths (rand : ℕ → ℚ) (s : State) : State :=
  { s with ball_paths :=
      generate_ball_paths_fn s.n_balls s.n_rows s.probability rand }

/-- The ball appended by one iteration of the `start_next_balls` loop
(source lines 249-263): spawn above the first peg, target the first peg;
`(0, 0)` is in `peg_positions` exactly when the geometry has ≥ 1 row. -/
noncomputable def new_ball (s : State) : FlightBall :=
  if 0 < s.geom_n_rows then
    let sp := pegPosition s.geom_n_rows 0 0
    let xy := clamp_position (sp.1 : ℝ) 120
    let t := clamp_position (sp.1 : ℝ) (sp.2 : ℝ)
    ⟨s.balls_dropped, 0, xy.1, xy.2, t.1, t.2⟩
  else
    let xy := clamp_position 600 120
    let t := clamp_position 600 120
    ⟨s.balls_dropped, 0, xy.1, xy.2, t.1, t.2⟩

/-- `start_next_balls` (source lines 245-264): admit balls while the
in-flight count is below `max_simultaneous_balls` and undropped balls
remain. -/
noncomputable def start_next_balls (s : State) : State :=
  if s.balls_in_flight.length < s.max_simultaneous_balls ∧
      s.balls_dropped < s.n_balls then
    start_next_balls
      { s with
        balls_in_flight := s.balls_in_flight ++ [new_ball s],
        balls_dropped := s.balls_dropped + 1 }
  else s
termination_by s.n_balls - s.balls_dropped
decreasing_by omega

/-- `start_animation` (source lines 222-243): reset all per-run state,
rebuild geometry and paths, admit the first balls. -/
noncomputable def start_animation (rand : ℕ → ℚ) (s : State) : State :=
  let s := update_bins_array_size s
  let s :=
    { s with
      positions := ([] : List ℕ),
      bins_count := List.replicate s.bins_count.length 0,
      balls_completed := 0,
      observed_mean := 0,
      observed_std := 0,
      simulation_complete := false,
      balls_dropped := 0,
      balls_in_flight := ([] : List FlightBall),
      ball_falling := true,
      paused := false,
      stopped := false,
      delay_counter := 0,
      plot_update_counter := 0,
      plot_needs_update := true }
  let s := precalculate_positions s
  let s := generate_ball_paths rand s
  start_next_balls s

/-! ## Per-tick animation update (`update_animation`, source lines 296-371)

The source iterates over `balls_in_flight`, writing updated entries in
place and collecting indices of finished balls, which are popped after
the loop; the net effect is a left-to-right fold keeping updated
non-finished balls in order. -/

/-- Result of processing one in-flight ball during a tick: either the
updated entry stays in flight, or the ball reached its bin and the loop
records final position `fp` and removes the entry. -/
inductive BallResult where
  | kept (b : FlightBall)
  | finished (fp : ℕ)

/-- The arrival branch (source lines 321-352 up to the write-back): snap
to the (clamped) target; below the last peg row advance `current_row`
and aim at the next waypoint, otherwise finish with `path[-1]`. -/
noncomputable def arrival_step (nRows g : ℕ) (paths : List (List ℕ))
    (b : FlightBall) (tx ty : ℝ) : BallResult :=
  let xy := clamp_position tx ty
  if b.currentRow < nRows then
    let row' := b.currentRow + 1
    let tgt : ℤ × ℤ :=
      if row' < nRows then
        get_peg_position g row' ((paths.getD b.index []).getD row' 0)
      else
        get_bin_position g ((paths.getD b.index []).getLastD 0)
    let t := clamp_position (tgt.1 : ℝ) (tgt.2 : ℝ)
    .kept ⟨b.index, row', xy.1, xy.2, t.1, t.2⟩
  else
    .finished ((paths.getD b.index []).getLastD 0)

/-- `effective_speed = min(self.ball_speed * 2, 30)` (source line 319). -/
noncomputable def tick_step (speed : ℚ) : ℝ := min ((speed : ℝ) * 2) 30

/-- `dx = target_x - x` after the loop-head clamps (source line 315). -/
noncomputable def ball_dx (b : FlightBall) : ℝ :=
  (clamp_position b.targetX b.targetY).1 - (clamp_position b.x b.y).1

/-- `dy = target_y - y` after the loop-head clamps (source line 316). -/
noncomputable def ball_dy (b : FlightBall) : ℝ :=
  (clamp_position b.targetX b.targetY).2 - (clamp_position b.x b.y).2

/-- `distance_sq = dx * dx + dy * dy` (source line 317). -/
noncomputable def ball_dsq (b : FlightBall) : ℝ :=
  ball_dx b * ball_dx b + ball_dy b * ball_dy b

/-- The non-arrival branch (source lines 353-363): move by
`effective_speed` along the normalized direction (no move at zero
distance), clamp, write back with the row and target unchanged. -/
noncomputable def move_step (speed : ℚ) (b : FlightBall)
    (x y tx ty dx dy dsq : ℝ) : BallResult :=
  let es : ℝ := tick_step speed
  let p := if 0 < dsq then (x + es * dx / Real.sqrt dsq, y + es * dy / Real.sqrt dsq)
    else (x, y)
  let q := clamp_position p.1 p.2
  .kept ⟨b.index, b.currentRow, q.1, q.2, tx, ty⟩

/-- One loop iteration of `update_animation` for ball entry `b`
(source lines 309-363). -/
noncomputable def process_ball (nRows g : ℕ) (paths : List (List ℕ))
    (speed : ℚ) (b : FlightBall) : BallResult :=
  let xy := clamp_position b.x b.y
  let t := clamp_position b.targetX b.targetY
  if ball_dsq b < tick_step speed * tick_step speed then
    arrival_step nRows g paths b t.1 t.2
  else
    move_step speed b xy.1 xy.2 t.1 t.2 (ball_dx b) (ball_dy b) (ball_dsq b)

/-- The mutable variables threaded through the ball loop of
`update_animation`. -/
structure TickAcc where
  flight : List FlightBall
  positions : List ℕ
  bins : List ℕ
  completed : ℕ
  obs_mean : ℝ
  obs_std : ℝ
  plot_counter : ℕ
  plot_needs : Bool

/-- The statistics/histogram update on ball completion (source lines
337-351): only a final position that is a valid bin index is recorded;
mean/stddev are recomputed every 5th completion; the plot refresh is
throttled by `plot_update_interval`. -/
noncomputable def record_outcome (interval fp : ℕ) (a : TickAcc) : TickAcc :=
  if fp < a.bins.length then
    let pos' := a.positions ++ [fp]
    let comp' := a.completed + 1
    let mean' := if comp' % 5 = 0 then list_mean pos' else a.obs_mean
    let std' := if comp' % 5 = 0 then
        (if 1 < pos'.length then list_std pos' else 0)
      else a.obs_std
    let pc := a.plot_counter + 1
    { flight := a.flight,
      positions := pos',
      bins := a.bins.set fp (a.bins.getD fp 0 + 1),
      completed := comp',
      obs_mean := mean',
      obs_std := std',
      plot_counter := if interval ≤ pc then 0 else pc,
      plot_needs := if interval ≤ pc then true else a.plot_needs }
  else a

/-- The ball loop of `update_animation` as a fold. -/
noncomputable def step_balls (nRows g : ℕ) (paths : List (List ℕ))
    (speed : ℚ) (interval : ℕ) : List FlightBall → TickAcc → TickAcc
  | [], a => a
  | b :: rest, a =>
    match process_ball nRows g paths speed b with
    | .kept b' =>
      step_balls nRows g paths speed interval rest
        { a with flight := a.flight ++ [b'] }
    | .finished fp =>
      step_balls nRows g paths speed interval rest (record_outcome interval fp a)

/-- The ball-advance and completion-detection phase of
`update_animation` (source lines 307-371): run the ball loop over the
in-flight list, write back the accumulator, then flag completion when
all balls are dropped and none is in flight. -/
noncomputable def advance_balls (s1 : State) : State :=
  let a := step_balls s1.n_rows s1.geom_n_rows s1.ball_paths s1.ball_speed
    s1.plot_update_interval s1.balls_in_flight
    ⟨[], s1.positions, s1.bins_count, s1.balls_completed, s1.observed_mean,
      s1.observed_std, s1.plot_update_counter, s1.plot_needs_update⟩
  let s2 :=
    { s1 with
      balls_in_flight := a.flight,
      positions := a.positions,
      bins_count := a.bins,
      balls_completed := a.completed,
      observed_mean := a.obs_mean,
      observed_std := a.obs_std,
      plot_update_counter := a.plot_counter,
      plot_needs_update := a.plot_needs }
  if s2.n_balls ≤ s2.balls_dropped ∧ s2.balls_in_flight.length = 0 then
    { s2 with
      ball_falling := false,
      simulation_complete := true,
      plot_needs_update := true }
  else s2

/-- `update_animation` (source lines 296-371): no-op unless running;
admission throttled by `delay_counter`; then the advance phase. -/
noncomputable def update_animation (s : State) : State :=
  if s.ball_falling = false ∨ s.paused = true ∨ s.stopped = true then s
  else
    advance_balls
      (if 0 < s.delay_counter then
        { s with delay_counter := s.delay_counter - 1 }
      else
        let t := start_next_balls s
        { t with delay_counter := max 1 (30 - t.ball_speed * (3 / 10)) })

/-! ## Buttons (`handle_button_click`, source lines 684-702) and
`reset_parameters` (source lines 704-731) -/

/-- The `stop` button (source lines 696-698). -/
def press_stop (s : State) : State :=
  { s with ball_falling := false, stopped := true }

/-- The `pause` button (source lines 694-695): toggles `paused` only
while balls are falling. -/
def press_pause (s : State) : State :=
  if s.ball_falling then { s with paused := !s.paused } else s

/-- The `run` button (source lines 692-693): starts a run only when no
run is active. -/
noncomputable def press_run (rand : ℕ → ℚ) (s : State) : State :=
  if s.ball_falling then s else start_animation rand s

/-- `reset_parameters` (source lines 704-731): restore default
configuration and clear run state (`balls_dropped`, `delay_counter`,
`ball_paths`, and the observed statistics are not touched by the
source). -/
noncomputable def reset_parameters (s : State) : State :=
  let s :=
    { s with
      n_balls := 500,
      n_rows := 12,
      probability := 1 / 2,
      ball_speed := 6,
      max_simultaneous_balls := 8,
      slider_balls := 500,
      slider_rows := 12,
      slider_prob := 1 / 2,
      slider_speed := 6,
      slider_multi := 8,
      ball_falling := false,
      simulation_complete := false,
      balls_completed := 0,
      positions := ([] : List ℕ) }
  let s := update_bins_array_size s
  let s :=
    { s with
      bins_count := List.replicate s.bins_count.length 0,
      balls_in_flight := ([] : List FlightBall),
      paused := false,
      stopped := false,
      plot_needs_update := true }
  let s := calculate_theoretical_values s
  precalculate_positions s

/-! ## Sliders (`handle_slider_input`, source lines 641-682)

Slider geometry from `__init__`: all sliders at `x = 40`, width 200,
height 20; vertical positions 120, 190, 260, 330, 400; ranges
balls 100-1000 (step 50), rows 5-18, prob 0.1-0.9, speed 1-100,
multi 1-25.  Python's `round` (banker's rounding) is modelled on `ℚ`;
`int()` of the non-negative intermediate values is `⌊·⌋`. -/

inductive SliderName where
  | balls | rows | prob | speed | multi
deriving DecidableEq

/-- Vertical position of each slider's track. -/
def slider_top : SliderName → ℚ
  | .balls => 120
  | .rows => 190
  | .prob => 260
  | .speed => 330
  | .multi => 400

/-- The hit test `x <= mx <= x + width and y - 15 <= my <= y + height + 15`. -/
def slider_hit (n : SliderName) (mx my : ℚ) : Prop :=
  40 ≤ mx ∧ mx ≤ 240 ∧ slider_top n - 15 ≤ my ∧ my ≤ slider_top n + 35

instance (n : SliderName) (mx my : ℚ) : Decidable (slider_hit n mx my) := by
  unfold slider_hit; infer_instance

/-- Python's `round` to the nearest integer, ties to even. -/
def py_round (q : ℚ) : ℤ :=
  if q - ⌊q⌋ < 1 / 2 then ⌊q⌋
  else if 1 / 2 < q - ⌊q⌋ then ⌊q⌋ + 1
  else if 2 ∣ ⌊q⌋ then ⌊q⌋ else ⌊q⌋ + 1

/-- The body of the slider-hit branch of `handle_slider_input` for
slider `n` (source lines 652-681): compute the clamped ratio, quantize
per slider kind, clamp into the slider's range, store into both the
slider and the simulation attribute, refresh the theoretical values. -/
noncomputable def apply_slider (n : SliderName) (mx : ℚ) (s : State) : State :=
  let ratio : ℚ := max 0 (min 1 ((mx - 40) / 200))
  calculate_theoretical_values <|
    match n with
    | .balls =>
      let v := 100 + ratio * 900
      let w : ℤ := max 100 (min 1000 (⌊v / 50⌋ * 50))
      { s with slider_balls := (w : ℚ), n_balls := w.toNat }
    | .rows =>
      let v := 5 + ratio * 13
      let w : ℤ := max 5 (min 18 (py_round v))
      precalculate_positions <| update_bins_array_size <|
        { s with slider_rows := (w : ℚ), n_rows := w.toNat }
    | .prob =>
      let v := 1 / 10 + ratio * (8 / 10)
      let w : ℚ := max (1 / 10) (min (9 / 10) ((py_round (v * 100) : ℚ) / 100))
      { s with slider_prob := w, probability := w }
    | .speed =>
      let v := 1 + ratio * 99
      let w : ℤ := max 1 (min 100 (py_round v))
      { s with slider_speed := (w : ℚ), ball_speed := (w : ℚ) }
    | .multi =>
      let v := 1 + ratio * 24
      let w : ℤ := max 1 (min 25 (py_round v))
      { s with slider_multi := (w : ℚ), max_simultaneous_balls := w.toNat }

/-- `handle_slider_input` (source lines 641-682): rejected outright while
a run is active (`ball_falling and not stopped`); otherwise the sliders
are tested in dictionary order and the first hit is applied. -/
noncomputable def handle_slider_input (mx my : ℚ) (s : State) :
    State × Option SliderName :=
  if s.ball_falling = true ∧ s.stopped = false then (s, none)
  else if slider_hit .balls mx my then (apply_slider .balls mx s, some .balls)
  else if slider_hit .rows mx my then (apply_slider .rows mx s, some .rows)
  else if slider_hit .prob mx my then (apply_slider .prob mx s, some .prob)
  else if slider_hit .speed mx my then (apply_slider .speed mx s, some .speed)
  else if slider_hit .multi mx my then (apply_slider .multi mx s, some .multi)
  else (s, none)

/-! ## Reachable run states

The main loop (source lines 733-791) feeds the simulation exactly these
events: animation ticks every frame, button clicks / their keyboard
shortcuts, and slider interaction at arbitrary mouse positions.  A run
state is anything reachable after some `start_animation`. -/

/-- States reachable from a `start_animation` on `s0` by any sequence of
main-loop events. -/
inductive Reach (s0 : State) : State → Prop where
  | start (rand : ℕ → ℚ) : Reach s0 (start_animation rand s0)
  | tick {s : State} : Reach s0 s → Reach s0 (update_animation s)
  | run {s : State} (rand : ℕ → ℚ) : Reach s0 s → Reach s0 (press_run rand s)
  | pause {s : State} : Reach s0 s → Reach s0 (press_pause s)
  | stop {s : State} : Reach s0 s → Reach s0 (press_stop s)
  | reset {s : State} : Reach s0 s → Reach s0 (reset_parameters s)
  | slider {s : State} (mx my : ℚ) :
      Reach s0 s → Reach s0 (handle_slider_input mx my s).1

/-! ## Halted ticks: stop and pause -/

/-- The early return of `update_animation` (source lines 298-299). -/
theorem update_animation_halted {s : State}
    (h : s.ball_falling = false ∨ s.paused = true ∨ s.stopped = true) :
    update_animation s = s := by
  rw [update_animation, if_pos h]

/-- **C5.** Stop cancellation: after the stop button fires, every
subsequent tick (any number of them) is a complete no-op, and the stop
itself leaves the in-flight list, histogram, outcome list, completed
count and observed statistics untouched — in-flight balls are abandoned,
never force-completed or recorded. -/
theorem c5_stop_cancellation (s : State) :
    (∀ n : ℕ, update_animation^[n] (press_stop s) = press_stop s) ∧
    (press_stop s).balls_in_flight = s.balls_in_flight ∧
    (press_stop s).bins_count = s.bins_count ∧
    (press_stop s).positions = s.positions ∧
    (press_stop s).balls_completed = s.balls_completed ∧
    (press_stop s).observed_mean = s.observed_mean ∧
    (press_stop s).observed_std = s.observed_std ∧
    (press_stop s).simulation_complete = s.simulation_complete := by
  have hid : update_animation (press_stop s) = press_stop s :=
    update_animation_halted (Or.inr (Or.inr rfl))
  refine ⟨?_, rfl, rfl, rfl, rfl, rfl, rfl, rfl⟩
  intro n
  induction n with
  | zero => rfl
  | succ m ih => rw [Function.iterate_succ_apply', ih, hid]

/-- **C6.** Pause frame property: while `paused` holds, any number of
consecutive ticks leaves the whole state — in particular every in-flight
ball's `(currentRow, position, target)`, the histogram, outcome list,
completed count and `balls_dropped` — unchanged; toggling pause twice
restores the state exactly, so the first tick after resume computes from
precisely the frozen positions. -/
theorem c6_pause_frame (s : State) :
    (s.paused = true → ∀ n : ℕ, update_animation^[n] s = s) ∧
    (s.ball_falling = true →
      press_pause (press_pause s) = s ∧
      (press_pause s).balls_in_flight = s.balls_in_flight ∧
      (press_pause s).bins_count = s.bins_count ∧
      (press_pause s).positions = s.positions ∧
      (press_pause s).balls_completed = s.balls_completed ∧
      (press_pause s).balls_dropped = s.balls_dropped ∧
      update_animation (press_pause (press_pause s)) = update_animation s) := by
  constructor
  · intro hp n
    have hid : update_animation s = s :=
      update_animation_halted (Or.inr (Or.inl hp))
    induction n with
    | zero => rfl
    | succ m ih => rw [Function.iterate_succ_apply', ih, hid]
  · intro hf
    have h1 : press_pause s = { s with paused := !s.paused } := by
      rw [press_pause, if_pos hf]
    have h2 : press_pause (press_pause s) = s := by
      rw [h1, press_pause, if_pos hf]
      simp [Bool.not_not]
    refine ⟨h2, ?_, ?_, ?_, ?_, ?_, by rw [h2]⟩ <;> rw [h1]

/-- A concrete idle state used by witnesses. -/
noncomputable def baseState : State where
  n_balls := 500
  n_rows := 12
  probability := 1 / 2
  ball_speed := 6
  max_simultaneous_balls := 8
  plot_update_counter := 0
  plot_update_interval := 10
  ball_paths := []
  balls_in_flight := []
  balls_dropped := 0
  delay_counter := 0
  ball_falling := false
  paused := false
  stopped := false
  positions := []
  bins_count := List.replicate 13 0
  balls_completed := 0
  observed_mean := 0
  observed_std := 0
  theoretical_mean := 6
  theoretical_std := 0
  simulation_complete := false
  plot_needs_update := false
  geom_n_rows := 12
  slider_balls := 500
  slider_rows := 12
  slider_prob := 1 / 2
  slider_speed := 6
  slider_multi := 8

/-- Witness for C6: a concrete paused mid-run state. -/
theorem c6_witness :
    ({ baseState with paused := true, ball_falling := true } : State).paused
        = true ∧
    ({ baseState with paused := true, ball_falling := true } : State).ball_falling
        = true ∧
    update_animation^[5] { baseState with paused := true, ball_falling := true }
        = { baseState with paused := true, ball_falling := true } ∧
    press_pause (press_pause
        { baseState with paused := true, ball_falling := true })
      = { baseState with paused := true, ball_falling := true } :=
  ⟨rfl, rfl, (c6_pause_frame _).1 rfl 5, ((c6_pause_frame _).2 rfl).1⟩

/-! ## C4: the per-tick advance rule -/

/-- `clamp_position` is the identity on points safely inside the board
(the recentre fallback is unreachable from the clamp bounds). -/
theorem clamp_position_id {x y : ℝ} (hx1 : 320 ≤ x) (hx2 : x ≤ 880)
    (hy1 : 120 ≤ y) (hy2 : y ≤ 560) : clamp_position x y = (x, y) := by
  rw [clamp_position]
  rw [min_eq_left hx2, max_eq_right hx1, min_eq_left hy2, max_eq_right hy1,
    if_neg]
  push_neg
  exact ⟨by linarith, by linarith, by linarith, by linarith⟩

/-- Evaluation of the per-ball derived quantities when both the position
and the target already lie inside the clamp region. -/
theorem ball_geom_of_inrange (i r : ℕ) (x y tx ty : ℝ)
    (hx1 : 320 ≤ x) (hx2 : x ≤ 880) (hy1 : 120 ≤ y) (hy2 : y ≤ 560)
    (htx1 : 320 ≤ tx) (htx2 : tx ≤ 880) (hty1 : 120 ≤ ty) (hty2 : ty ≤ 560) :
    ball_dx ⟨i, r, x, y, tx, ty⟩ = tx - x ∧
    ball_dy ⟨i, r, x, y, tx, ty⟩ = ty - y ∧
    ball_dsq ⟨i, r, x, y, tx, ty⟩ = (tx - x) * (tx - x) + (ty - y) * (ty - y) := by
  have h1 : clamp_position x y = (x, y) := clamp_position_id hx1 hx2 hy1 hy2
  have h2 : clamp_position tx ty = (tx, ty) :=
    clamp_position_id htx1 htx2 hty1 hty2
  refine ⟨?_, ?_, ?_⟩ <;>
    simp [ball_dsq, ball_dx, ball_dy, h1, h2]

theorem tick_step_fifteen : tick_step 15 = 30 := by
  rw [tick_step]
  push_cast
  norm_num

/-- **C4 claim, as stated in the spec**: the ball snaps (takes the
arrival branch) whenever the squared distance to the target is *at
most* `step²`, and takes the move branch whenever it exceeds `step²`. -/
def c4_claim_prop : Prop :=
  ∀ (nRows g : ℕ) (paths : List (List ℕ)) (speed : ℚ) (b : FlightBall),
    (ball_dsq b ≤ tick_step speed * tick_step speed →
      process_ball nRows g paths speed b =
        arrival_step nRows g paths b (clamp_position b.targetX b.targetY).1
          (clamp_position b.targetX b.targetY).2) ∧
    (tick_step speed * tick_step speed < ball_dsq b →
      process_ball nRows g paths speed b =
        move_step speed b (clamp_position b.x b.y).1 (clamp_position b.x b.y).2
          (clamp_position b.targetX b.targetY).1
          (clamp_position b.targetX b.targetY).2
          (ball_dx b) (ball_dy b) (ball_dsq b))

theorem sqrt_nine_hundred : Real.sqrt 900 = 30 := by
  rw [show (900 : ℝ) = 30 ^ 2 by norm_num,
    Real.sqrt_sq (by norm_num : (0 : ℝ) ≤ 30)]

/-- At squared distance exactly `step²` the source takes the *move*
branch (strict `<` on line 321), not the arrival branch. -/
theorem process_ball_at_step_sq :
    process_ball 3 3 [[0, 0, 0]] 15 ⟨0, 0, 600, 160, 600, 190⟩ =
      .kept ⟨0, 0, 600, 190, 600, 190⟩ := by
  have c1 : clamp_position (600 : ℝ) 160 = (600, 160) :=
    clamp_position_id (by norm_num) (by norm_num) (by norm_num) (by norm_num)
  have c2 : clamp_position (600 : ℝ) 190 = (600, 190) :=
    clamp_position_id (by norm_num) (by norm_num) (by norm_num) (by norm_num)
  obtain ⟨hdx, hdy, hdsq⟩ := ball_geom_of_inrange 0 0 600 160 600 190
    (by norm_num) (by norm_num) (by norm_num) (by norm_num)
    (by norm_num) (by norm_num) (by norm_num) (by norm_num)
  have hdsq' : ball_dsq ⟨0, 0, 600, 160, 600, 190⟩ = 900 := by
    rw [hdsq]; norm_num
  have hdx' : ball_dx ⟨0, 0, 600, 160, 600, 190⟩ = 0 := by rw [hdx]; norm_num
  have hdy' : ball_dy ⟨0, 0, 600, 160, 600, 190⟩ = 30 := by rw [hdy]; norm_num
  rw [process_ball]
  rw [if_neg (by rw [hdsq', tick_step_fifteen]; norm_num)]
  rw [move_step]
  simp only [hdx', hdy', hdsq', tick_step_fifteen, c1, c2]
  rw [if_pos (by norm_num : (0 : ℝ) < 900)]
  simp only [sqrt_nine_hundred]
  norm_num
  rw [c2]
  exact ⟨rfl, rfl⟩

/-- The arrival branch at the same input advances the row. -/
theorem arrival_step_at_step_sq :
    arrival_step 3 3 [[0, 0, 0]] ⟨0, 0, 600, 160, 600, 190⟩ 600 190 =
      .kept ⟨0, 1, 600, 190, 530, 250⟩ := by
  have c2 : clamp_position (600 : ℝ) 190 = (600, 190) :=
    clamp_position_id (by norm_num) (by norm_num) (by norm_num) (by norm_num)
  have hpeg : get_peg_position 3 1
      ((([[0, 0, 0]] : List (List ℕ)).getD 0 []).getD 1 0) = (530, 250) := by
    have h0 : (([[0, 0, 0]] : List (List ℕ)).getD 0 []).getD 1 0 = 0 := by decide
    rw [h0]
    norm_num [get_peg_position, pegPosition, min_def, max_def]
  have c3 : clamp_position ((530 : ℤ) : ℝ) ((250 : ℤ) : ℝ) = (530, 250) := by
    push_cast
    exact clamp_position_id (by norm_num) (by norm_num) (by norm_num)
      (by norm_num)
  rw [arrival_step]
  rw [if_pos (by decide : (⟨0, 0, 600, 160, 600, 190⟩ : FlightBall).currentRow < 3)]
  simp only [c2]
  rw [if_pos (by decide : (⟨0, 0, 600, 160, 600, 190⟩ : FlightBall).currentRow + 1 < 3)]
  rw [hpeg, c3]

/-- **C4 counterexample.** At squared distance exactly `step²`
(step = min(2·15, 30) = 30, ball at (600,160) targeting (600,190)) the
code moves without arriving — the row is not advanced — whereas the
claim's `≤` comparison demands the arrival branch.  Hence the claim as
stated is false of the code. -/
theorem c4_counterexample : ¬ c4_claim_prop := by
  intro h
  obtain ⟨hdx, hdy, hdsq⟩ := ball_geom_of_inrange 0 0 600 160 600 190
    (by norm_num) (by norm_num) (by norm_num) (by norm_num)
    (by norm_num) (by norm_num) (by norm_num) (by norm_num)
  have hdsq' : ball_dsq ⟨0, 0, 600, 160, 600, 190⟩ = 900 := by
    rw [hdsq]; norm_num
  have hle : ball_dsq ⟨0, 0, 600, 160, 600, 190⟩ ≤ tick_step 15 * tick_step 15 := by
    rw [hdsq', tick_step_fifteen]; norm_num
  have heq := (h 3 3 [[0, 0, 0]] 15 ⟨0, 0, 600, 160, 600, 190⟩).1 hle
  have c2 : clamp_position (600 : ℝ) 190 = (600, 190) :=
    clamp_position_id (by norm_num) (by norm_num) (by norm_num) (by norm_num)
  rw [process_ball_at_step_sq] at heq
  simp only [c2] at heq
  rw [arrival_step_at_step_sq] at heq
  simp only [BallResult.kept.injEq, FlightBall.mk.injEq] at heq
  omega

/-- **C4 (amended).** Per-tick advance rule as the code implements it:
with `step = min(2·speed, 30)`, a ball snaps to its target (arrival
branch) exactly when the squared distance to the target is *strictly
below* `step²`; otherwise it moves toward the target by `step` along the
normalized direction (position unchanged when the distance is exactly
zero), keeping row and target.  In the Running state with a positive
admission delay the tick processes exactly the in-flight list through
this per-ball rule. -/
theorem c4_per_tick_advance :
    (∀ (nRows g : ℕ) (paths : List (List ℕ)) (speed : ℚ) (b : FlightBall),
      (ball_dsq b < tick_step speed * tick_step speed →
        process_ball nRows g paths speed b =
          arrival_step nRows g paths b (clamp_position b.targetX b.targetY).1
            (clamp_position b.targetX b.targetY).2) ∧
      (tick_step speed * tick_step speed ≤ ball_dsq b → 0 < ball_dsq b →
        process_ball nRows g paths speed b =
          .kept ⟨b.index, b.currentRow,
            (clamp_position
              ((clamp_position b.x b.y).1 +
                tick_step speed * ball_dx b / Real.sqrt (ball_dsq b))
              ((clamp_position b.x b.y).2 +
                tick_step speed * ball_dy b / Real.sqrt (ball_dsq b))).1,
            (clamp_position
              ((clamp_position b.x b.y).1 +
                tick_step speed * ball_dx b / Real.sqrt (ball_dsq b))
              ((clamp_position b.x b.y).2 +
                tick_step speed * ball_dy b / Real.sqrt (ball_dsq b))).2,
            (clamp_position b.targetX b.targetY).1,
            (clamp_position b.targetX b.targetY).2⟩) ∧
      (tick_step speed * tick_step speed ≤ ball_dsq b → ball_dsq b = 0 →
        process_ball nRows g paths speed b =
          .kept ⟨b.index, b.currentRow,
            (clamp_position (clamp_position b.x b.y).1
              (clamp_position b.x b.y).2).1,
            (clamp_position (clamp_position b.x b.y).1
              (clamp_position b.x b.y).2).2,
            (clamp_position b.targetX b.targetY).1,
            (clamp_position b.targetX b.targetY).2⟩)) ∧
    (∀ s : State, s.ball_falling = true → s.paused = false → s.stopped = false →
      0 < s.delay_counter →
      (update_animation s).balls_in_flight =
        (step_balls s.n_rows s.geom_n_rows s.ball_paths s.ball_speed
          s.plot_update_interval s.balls_in_flight
          ⟨[], s.positions, s.bins_count, s.balls_completed, s.observed_mean,
            s.observed_std, s.plot_update_counter, s.plot_needs_update⟩).flight) := by
  constructor
  · intro nRows g paths speed b
    refine ⟨?_, ?_, ?_⟩
    · intro hlt
      rw [process_ball, if_pos hlt]
    · intro hge hpos
      rw [process_ball, if_neg (not_lt.mpr hge), move_step]
      simp only [if_pos hpos]
    · intro hge hzero
      rw [process_ball, if_neg (not_lt.mpr hge), move_step]
      rw [hzero]
      simp only [lt_irrefl, if_false]
  · intro s h1 h2 h3 h4
    rw [update_animation, if_neg (by simp [h1, h2, h3]), if_pos h4,
      advance_balls]
    simp only
    split <;> rfl

/-- Witness for C4 (amended): a concrete arrival step, a concrete move
step, and a concrete running tick. -/
theorem c4_witness :
    (ball_dsq ⟨0, 0, 600, 150, 600, 160⟩ < tick_step 15 * tick_step 15 ∧
      process_ball 1 1 [[1]] 15 ⟨0, 0, 600, 150, 600, 160⟩ =
        arrival_step 1 1 [[1]] ⟨0, 0, 600, 150, 600, 160⟩
          (clamp_position (600 : ℝ) 160).1 (clamp_position (600 : ℝ) 160).2) ∧
    (tick_step 15 * tick_step 15 ≤ ball_dsq ⟨0, 1, 600, 160, 740, 520⟩ ∧
      0 < ball_dsq ⟨0, 1, 600, 160, 740, 520⟩ ∧
      process_ball 1 1 [[1]] 15 ⟨0, 1, 600, 160, 740, 520⟩ =
        BallResult.kept ⟨0, 1,
          (clamp_position
            ((clamp_position (600 : ℝ) 160).1 +
              tick_step 15 * ball_dx ⟨0, 1, 600, 160, 740, 520⟩ /
                Real.sqrt (ball_dsq ⟨0, 1, 600, 160, 740, 520⟩))
            ((clamp_position (600 : ℝ) 160).2 +
              tick_step 15 * ball_dy ⟨0, 1, 600, 160, 740, 520⟩ /
                Real.sqrt (ball_dsq ⟨0, 1, 600, 160, 740, 520⟩))).1,
          (clamp_position
            ((clamp_position (600 : ℝ) 160).1 +
              tick_step 15 * ball_dx ⟨0, 1, 600, 160, 740, 520⟩ /
                Real.sqrt (ball_dsq ⟨0, 1, 600, 160, 740, 520⟩))
            ((clamp_position (600 : ℝ) 160).2 +
              tick_step 15 * ball_dy ⟨0, 1, 600, 160, 740, 520⟩ /
                Real.sqrt (ball_dsq ⟨0, 1, 600, 160, 740, 520⟩))).2,
          (clamp_position (740 : ℝ) 520).1, (clamp_position (740 : ℝ) 520).2⟩) ∧
    (({ baseState with ball_falling := true, delay_counter := 5 } : State).ball_falling
        = true ∧
      (0 : ℚ) < 5 ∧
      (update_animation { baseState with ball_falling := true, delay_counter := 5 }).balls_in_flight
        = (step_balls 12 12 [] 6 10 []
            ⟨[], [], List.replicate 13 0, 0, 0, 0, 0, false⟩).flight) := by
  obtain ⟨_, _, hdsq1⟩ := ball_geom_of_inrange 0 0 600 150 600 160
    (by norm_num) (by norm_num) (by norm_num) (by norm_num)
    (by norm_num) (by norm_num) (by norm_num) (by norm_num)
  obtain ⟨_, _, hdsq2⟩ := ball_geom_of_inrange 0 1 600 160 740 520
    (by norm_num) (by norm_num) (by norm_num) (by norm_num)
    (by norm_num) (by norm_num) (by norm_num) (by norm_num)
  have h1 : ball_dsq ⟨0, 0, 600, 150, 600, 160⟩ < tick_step 15 * tick_step 15 := by
    rw [hdsq1, tick_step_fifteen]; norm_num
  have h2a : tick_step 15 * tick_step 15 ≤ ball_dsq ⟨0, 1, 600, 160, 740, 520⟩ := by
    rw [hdsq2, tick_step_fifteen]; norm_num
  have h2b : (0 : ℝ) < ball_dsq ⟨0, 1, 600, 160, 740, 520⟩ := by
    rw [hdsq2]; norm_num
  exact ⟨⟨h1, (c4_per_tick_advance.1 1 1 [[1]] 15 _).1 h1⟩,
    ⟨h2a, h2b, (c4_per_tick_advance.1 1 1 [[1]] 15 _).2.1 h2a h2b⟩,
    rfl, by norm_num,
    c4_per_tick_advance.2 _ rfl rfl rfl (by norm_num)⟩

/-! ## Structure of the admission loop and of the ball loop -/

theorem new_ball_row (s : State) : (new_ball s).currentRow = 0 := by
  rw [new_ball]; split <;> rfl

theorem new_ball_index (s : State) : (new_ball s).index = s.balls_dropped := by
  rw [new_ball]; split <;> rfl

/-- Characterization of `start_next_balls`: it appends some list of
fresh balls (each at row 0 with an index below `n_balls`), advances
`balls_dropped` by as many, touches nothing else, and respects both the
concurrency cap and the total ball count whenever it admits at all. -/
theorem start_next_balls_spec (s : State) :
    ∃ new : List FlightBall,
      start_next_balls s =
        { s with
          balls_in_flight := s.balls_in_flight ++ new,
          balls_dropped := s.balls_dropped + new.length } ∧
      (∀ b ∈ new, b.currentRow = 0 ∧ b.index < s.n_balls) ∧
      (s.balls_dropped + new.length ≤ s.n_balls ∨ new = []) ∧
      (s.balls_in_flight.length + new.length ≤ s.max_simultaneous_balls ∨
        new = []) := by
  suffices h : ∀ (fuel : ℕ) (s : State), s.n_balls - s.balls_dropped ≤ fuel →
      ∃ new : List FlightBall,
        start_next_balls s =
          { s with
            balls_in_flight := s.balls_in_flight ++ new,
            balls_dropped := s.balls_dropped + new.length } ∧
        (∀ b ∈ new, b.currentRow = 0 ∧ b.index < s.n_balls) ∧
        (s.balls_dropped + new.length ≤ s.n_balls ∨ new = []) ∧
        (s.balls_in_flight.length + new.length ≤ s.max_simultaneous_balls ∨
          new = []) by
    exact h (s.n_balls - s.balls_dropped) s le_rfl
  intro fuel
  induction fuel with
  | zero =>
    intro s hf
    refine ⟨[], ?_, by simp, Or.inr rfl, Or.inr rfl⟩
    rw [start_next_balls, if_neg (by omega)]
    simp
  | succ m ih =>
    intro s hf
    by_cases hg : s.balls_in_flight.length < s.max_simultaneous_balls ∧
        s.balls_dropped < s.n_balls
    · obtain ⟨new', heq, hmem, hd, hl⟩ :=
        ih { s with
              balls_in_flight := s.balls_in_flight ++ [new_ball s],
              balls_dropped := s.balls_dropped + 1 } (by simp; omega)
      refine ⟨new_ball s :: new', ?_, ?_, ?_, ?_⟩
      · rw [start_next_balls, if_pos hg, heq]
        simp [List.append_assoc]
        omega
      · intro b hb
        rcases List.mem_cons.mp hb with rfl | hb
        · exact ⟨new_ball_row s, by rw [new_ball_index]; exact hg.2⟩
        · have := hmem b hb
          simpa using this
      · left
        simp only [List.length_cons]
        rcases hd with hd | rfl
        · simp at hd; omega
        · simp only [List.length_nil]; omega
      · left
        simp only [List.length_cons]
        rcases hl with hl | rfl
        · simp at hl; omega
        · simp only [List.length_nil]; omega
    · refine ⟨[], ?_, by simp, Or.inr rfl, Or.inr rfl⟩
      rw [start_next_balls, if_neg hg]
      simp

/-- `start_next_balls` is the identity as soon as the cap is reached or
every ball has been dropped. -/
theorem start_next_balls_id (s : State)
    (h : ¬(s.balls_in_flight.length < s.max_simultaneous_balls ∧
        s.balls_dropped < s.n_balls)) :
    start_next_balls s = s := by
  rw [start_next_balls, if_neg h]

/-- Every loop iteration either keeps the ball (same index) or finishes
it with final position `path[-1]`. -/
theorem process_ball_cases (nRows g : ℕ) (paths : List (List ℕ)) (speed : ℚ)
    (b : FlightBall) :
    (∃ b', process_ball nRows g paths speed b = .kept b' ∧ b'.index = b.index) ∨
    (¬ b.currentRow < nRows ∧
      process_ball nRows g paths speed b =
        .finished ((paths.getD b.index []).getLastD 0)) := by
  rw [process_ball]
  by_cases hd : ball_dsq b < tick_step speed * tick_step speed
  · rw [if_pos hd, arrival_step]
    by_cases hr : b.currentRow < nRows
    · rw [if_pos hr]
      exact Or.inl ⟨_, rfl, rfl⟩
    · rw [if_neg hr]
      exact Or.inr ⟨hr, rfl⟩
  · rw [if_neg hd, move_step]
    exact Or.inl ⟨_, rfl, rfl⟩

theorem sum_set_succ (l : List ℕ) (i : ℕ) (hi : i < l.length) :
    (l.set i (l.getD i 0 + 1)).sum = l.sum + 1 := by
  induction l generalizing i with
  | nil => simp at hi
  | cons h t ih =>
    match i with
    | 0 => simp [List.getD_cons_zero]; omega
    | j + 1 =>
      simp only [List.set_cons_succ, List.sum_cons, List.getD_cons_succ]
      rw [ih j (by simpa using hi)]
      omega

theorem record_outcome_spec (interval fp : ℕ) (a : TickAcc)
    (hfp : fp < a.bins.length) :
    (record_outcome interval fp a).flight = a.flight ∧
    (record_outcome interval fp a).positions = a.positions ++ [fp] ∧
    (record_outcome interval fp a).bins =
      a.bins.set fp (a.bins.getD fp 0 + 1) ∧
    (record_outcome interval fp a).completed = a.completed + 1 ∧
    (record_outcome interval fp a).obs_mean =
      (if (a.completed + 1) % 5 = 0 then list_mean (a.positions ++ [fp])
       else a.obs_mean) ∧
    (record_outcome interval fp a).obs_std =
      (if (a.completed + 1) % 5 = 0 then
        (if 1 < (a.positions ++ [fp]).length then list_std (a.positions ++ [fp])
         else 0)
       else a.obs_std) := by
  rw [record_outcome, if_pos hfp]
  exact ⟨rfl, rfl, rfl, rfl, rfl, rfl⟩

theorem record_outcome_id (interval fp : ℕ) (a : TickAcc)
    (hfp : ¬ fp < a.bins.length) : record_outcome interval fp a = a := by
  rw [record_outcome, if_neg hfp]

/-- The statistics invariant maintained through the ball loop: the
outcome list tracks the completed count, and the displayed mean/stddev
are those recomputed at the last multiple-of-5 completion (their initial
value 0 before the fifth outcome). -/
def AccStats (a : TickAcc) : Prop :=
  a.positions.length = a.completed ∧
  a.obs_mean = (if 5 ≤ a.completed then
      list_mean (a.positions.take (5 * (a.completed / 5))) else 0) ∧
  a.obs_std = (if 5 ≤ a.completed then
      list_std (a.positions.take (5 * (a.completed / 5))) else 0)

theorem accStats_record (interval fp : ℕ) (a : TickAcc) (hs : AccStats a) :
    AccStats (record_outcome interval fp a) := by
  by_cases hfp : fp < a.bins.length
  · obtain ⟨hlen, hmean, hstd⟩ := hs
    obtain ⟨-, hpos, -, hcomp, hm, hsd⟩ := record_outcome_spec interval fp a hfp
    have hlen' : (a.positions ++ [fp]).length = a.completed + 1 := by
      simp [hlen]
    refine ⟨by rw [hpos, hcomp, hlen'], ?_, ?_⟩
    · rw [hm, hcomp, hpos]
      by_cases h5 : (a.completed + 1) % 5 = 0
      · have hdvd : 5 ∣ a.completed + 1 := Nat.dvd_of_mod_eq_zero h5
        have h5le : 5 ≤ a.completed + 1 := Nat.le_of_dvd (by omega) hdvd
        rw [if_pos h5, if_pos h5le, Nat.mul_div_cancel' hdvd, ← hlen',
          List.take_length]
      · have hq : (a.completed + 1) / 5 = a.completed / 5 := by
          rw [Nat.succ_div, if_neg (fun hdvd => h5 (Nat.mod_eq_zero_of_dvd hdvd))]
          omega
        rw [if_neg h5, hmean, hq]
        by_cases h5c : 5 ≤ a.completed
        · rw [if_pos h5c, if_pos (by omega), List.take_append_of_le_length]
          have := Nat.div_mul_le_self a.completed 5
          omega
        · rw [if_neg h5c, if_neg (by omega : ¬ 5 ≤ a.completed + 1)]
    · rw [hsd, hcomp, hpos]
      by_cases h5 : (a.completed + 1) % 5 = 0
      · have hdvd : 5 ∣ a.completed + 1 := Nat.dvd_of_mod_eq_zero h5
        have h5le : 5 ≤ a.completed + 1 := Nat.le_of_dvd (by omega) hdvd
        rw [if_pos h5, if_pos h5le, if_pos (by rw [hlen']; omega),
          Nat.mul_div_cancel' hdvd, ← hlen', List.take_length]
      · have hq : (a.completed + 1) / 5 = a.completed / 5 := by
          rw [Nat.succ_div, if_neg (fun hdvd => h5 (Nat.mod_eq_zero_of_dvd hdvd))]
          omega
        rw [if_neg h5, hstd, hq]
        by_cases h5c : 5 ≤ a.completed
        · rw [if_pos h5c, if_pos (by omega), List.take_append_of_le_length]
          have := Nat.div_mul_le_self a.completed 5
          omega
        · rw [if_neg h5c, if_neg (by omega : ¬ 5 ≤ a.completed + 1)]
  · rw [record_outcome_id interval fp a hfp]
    exact hs

/-- Cumulative effect of the ball loop on the accumulator: histogram
size preserved; every processed ball either stays in flight or bumps
`balls_completed`, the histogram total and the outcome list in lockstep;
kept balls carry indices of processed balls; the statistics invariant is
preserved. -/
theorem step_balls_spec (nRows g : ℕ) (paths : List (List ℕ)) (speed : ℚ)
    (interval : ℕ) :
    ∀ (balls : List FlightBall) (a : TickAcc),
      (∀ b ∈ balls, (paths.getD b.index []).getLastD 0 < a.bins.length) →
      (step_balls nRows g paths speed interval balls a).bins.length
          = a.bins.length ∧
      (step_balls nRows g paths speed interval balls a).completed +
          (step_balls nRows g paths speed interval balls a).flight.length
        = a.completed + a.flight.length + balls.length ∧
      a.completed ≤ (step_balls nRows g paths speed interval balls a).completed ∧
      (step_balls nRows g paths speed interval balls a).bins.sum + a.completed
        = a.bins.sum +
            (step_balls nRows g paths speed interval balls a).completed ∧
      (step_balls nRows g paths speed interval balls a).positions.length +
          a.completed
        = a.positions.length +
            (step_balls nRows g paths speed interval balls a).completed ∧
      (∀ b' ∈ (step_balls nRows g paths speed interval balls a).flight,
        b' ∈ a.flight ∨ ∃ b ∈ balls, b'.index = b.index) ∧
      (AccStats a → AccStats (step_balls nRows g paths speed interval balls a)) := by
  intro balls
  induction balls with
  | nil =>
    intro a _
    refine ⟨rfl, rfl, le_rfl, rfl, rfl, ?_, fun hs => hs⟩
    intro b' hb'
    exact Or.inl hb'
  | cons b rest ih =>
    intro a hv
    rcases process_ball_cases nRows g paths speed b with ⟨b', hpb, hidx⟩ |
      ⟨-, hpb⟩
    · have hstep : step_balls nRows g paths speed interval (b :: rest) a =
          step_balls nRows g paths speed interval rest
            { a with flight := a.flight ++ [b'] } := by
        rw [step_balls, hpb]
      obtain ⟨e1, e2, e3, e4, e5, e6, e7⟩ :=
        ih { a with flight := a.flight ++ [b'] }
          (fun x hx => hv x (List.mem_cons_of_mem b hx))
      rw [hstep]
      refine ⟨e1, ?_, e3, e4, e5, ?_, e7⟩
      · simp only [List.length_append, List.length_singleton] at e2
        simp only [List.length_cons]
        omega
      · intro x hx
        rcases e6 x hx with hxf | ⟨c, hc, hcidx⟩
        · rcases List.mem_append.mp hxf with hxf | hxf
          · exact Or.inl hxf
          · have : x = b' := by simpa using hxf
            exact Or.inr ⟨b, List.mem_cons_self b rest, by rw [this, hidx]⟩
        · exact Or.inr ⟨c, List.mem_cons_of_mem b hc, hcidx⟩
    · have hfp : (paths.getD b.index []).getLastD 0 < a.bins.length :=
        hv b (List.mem_cons_self b rest)
      have hstep : step_balls nRows g paths speed interval (b :: rest) a =
          step_balls nRows g paths speed interval rest
            (record_outcome interval ((paths.getD b.index []).getLastD 0) a) := by
        rw [step_balls, hpb]
      obtain ⟨r1, r2, r3, r4, r5, r6⟩ :=
        record_outcome_spec interval ((paths.getD b.index []).getLastD 0) a hfp
      have hblen : (record_outcome interval ((paths.getD b.index []).getLastD 0)
          a).bins.length = a.bins.length := by
        rw [r3, List.length_set]
      obtain ⟨e1, e2, e3, e4, e5, e6, e7⟩ :=
        ih (record_outcome interval ((paths.getD b.index []).getLastD 0) a)
          (fun x hx => by rw [hblen]; exact hv x (List.mem_cons_of_mem b hx))
      rw [hstep]
      have hsum : (record_outcome interval ((paths.getD b.index []).getLastD 0)
          a).bins.sum = a.bins.sum + 1 := by
        rw [r3, sum_set_succ a.bins _ hfp]
      have hposlen : (record_outcome interval
          ((paths.getD b.index []).getLastD 0) a).positions.length
            = a.positions.length + 1 := by
        rw [r2]; simp
      refine ⟨by rw [e1, hblen], ?_, ?_, ?_, ?_, ?_, ?_⟩
      · rw [r1] at e2
        rw [r4] at e2
        simp only [List.length_cons]
        omega
      · rw [r4] at e3
        omega
      · rw [r4] at e4
        omega
      · rw [r4] at e5
        omega
      · intro x hx
        rcases e6 x hx with hxf | ⟨c, hc, hcidx⟩
        · rw [r1] at hxf
          exact Or.inl hxf
        · exact Or.inr ⟨c, List.mem_cons_of_mem b hc, hcidx⟩
      · intro hs
        exact e7 (accStats_record interval _ a hs)

/-! ## Run-state invariant -/

theorem getLastD_mem {α : Type} : ∀ (l : List α) (d : α), l ≠ [] →
    l.getLastD d ∈ l := by
  intro l
  induction l with
  | nil => intro d h; exact absurd rfl h
  | cons x xs ih =>
    intro d _
    rw [List.getLastD_cons]
    match xs, ih with
    | [], _ => simp [List.getLastD]
    | y :: ys, ih =>
      exact List.mem_cons_of_mem x (ih x (by simp))

theorem getD_replicate_zero (k i : ℕ) : (List.replicate k (0 : ℕ)).getD i 0 = 0 := by
  by_cases h : i < k
  · rw [List.getD_eq_getElem _ 0 (by simpa using h)]
    simp
  · rw [List.getD_eq_default _ 0 (by simpa using h)]

theorem getD_take (l : List ℕ) : ∀ n i, i < n → (l.take n).getD i 0 = l.getD i 0 := by
  induction l with
  | nil => intro n i _; simp
  | cons h t ih =>
    intro n i hin
    match n, i with
    | m + 1, 0 => simp
    | m + 1, j + 1 =>
      simp only [List.take_succ_cons, List.getD_cons_succ]
      exact ih m j (by omega)

theorem sum_take_le (l : List ℕ) (n : ℕ) : (l.take n).sum ≤ l.sum := by
  conv_rhs => rw [← List.take_append_drop n l]
  rw [List.sum_append]
  omega

/-- `update_bins_array_size` only rewrites the histogram: to length
`n_rows + 1`, preserving the overlapping prefix, zero-filling above the
old length, and never increasing the total count. -/
theorem update_bins_only_bins (s : State) : ∃ bc : List ℕ,
    update_bins_array_size s = { s with bins_count := bc } ∧
    bc.length = s.n_rows + 1 ∧
    (∀ i < min s.bins_count.length (s.n_rows + 1),
      bc.getD i 0 = s.bins_count.getD i 0) ∧
    (∀ i, s.bins_count.length ≤ i → bc.getD i 0 = 0) ∧
    bc.sum ≤ s.bins_count.sum := by
  rw [update_bins_array_size]
  by_cases h : s.bins_count.length ≠ s.n_rows + 1
  · rw [if_pos h]
    refine ⟨_, rfl, ?_, ?_, ?_, ?_⟩
    · simp only [List.length_append, List.length_take, List.length_replicate]
      omega
    · intro i hi
      rw [List.getD_append _ _ 0 i (by
        simp only [List.length_take]; omega)]
      exact getD_take s.bins_count (s.n_rows + 1) i (by omega)
    · intro i hi
      by_cases h2 : i < (s.bins_count.take (s.n_rows + 1)).length
      · simp only [List.length_take] at h2
        rw [List.getD_append _ _ 0 i (by simp only [List.length_take]; omega)]
        rw [getD_take s.bins_count (s.n_rows + 1) i (by omega)]
        exact List.getD_eq_default _ 0 hi
      · simp only [List.length_take] at h2
        rw [List.getD_append_right _ _ 0 i (by simp only [List.length_take]; omega)]
        exact getD_replicate_zero _ _
    · rw [List.sum_append]
      have := sum_take_le s.bins_count (s.n_rows + 1)
      simp only [List.sum_replicate, smul_eq_mul, Nat.mul_zero]
      omega
  · rw [if_neg h]
    push_neg at h
    exact ⟨s.bins_count, rfl, h, fun i _ => rfl,
      fun i hi => List.getD_eq_default _ 0 hi, le_rfl⟩

/-- `update_bins_array_size` is the identity when the histogram already
has the right size. -/
theorem update_bins_id {s : State} (h : s.bins_count.length = s.n_rows + 1) :
    update_bins_array_size s = s := by
  rw [update_bins_array_size, if_neg (by omega)]

/-- The invariant holding at every reachable state; the conjuncts
conditional on `ball_falling` describe the run in progress. -/
structure Inv (s : State) : Prop where
  falling_not_stopped : s.ball_falling = true → s.stopped = false
  falling_not_complete : s.ball_falling = true → s.simulation_complete = false
  sum_le : s.bins_count.sum ≤ s.balls_completed
  sum_eq : s.ball_falling = true → s.bins_count.sum = s.balls_completed
  bins_len : s.ball_falling = true → s.bins_count.length = s.n_rows + 1
  paths_len : s.ball_falling = true → s.ball_paths.length = s.n_balls
  paths_vals : s.ball_falling = true →
    ∀ p ∈ s.ball_paths, ∀ v ∈ p, v ≤ s.n_rows
  flight_idx : s.ball_falling = true →
    ∀ b ∈ s.balls_in_flight, b.index < s.n_balls
  count_eq : s.ball_falling = true →
    s.balls_completed + s.balls_in_flight.length = s.balls_dropped
  dropped_le : s.ball_falling = true → s.balls_dropped ≤ s.n_balls
  cap : s.ball_falling = true →
    s.balls_in_flight.length ≤ s.max_simultaneous_balls
  pos_len : s.ball_falling = true → s.positions.length = s.balls_completed
  mean_inv : s.ball_falling = true → s.observed_mean =
    (if 5 ≤ s.balls_completed then
      list_mean (s.positions.take (5 * (s.balls_completed / 5))) else 0)
  std_inv : s.ball_falling = true → s.observed_std =
    (if 5 ≤ s.balls_completed then
      list_std (s.positions.take (5 * (s.balls_completed / 5))) else 0)

/-- A ball in flight under the invariant finalizes into a valid bin
index: path values are bounded by `n_rows` and the histogram has
`n_rows + 1` bins (an empty path would raise `IndexError` in the source;
its modelled default 0 is a valid index as well). -/
theorem flight_fp_lt {s : State} (hI : Inv s) (hf : s.ball_falling = true)
    {b : FlightBall} (hb : b ∈ s.balls_in_flight) :
    (s.ball_paths.getD b.index []).getLastD 0 < s.bins_count.length := by
  rw [hI.bins_len hf]
  have hidx : b.index < s.ball_paths.length := by
    rw [hI.paths_len hf]
    exact hI.flight_idx hf b hb
  by_cases hnil : s.ball_paths.getD b.index [] = []
  · rw [hnil]
    simp
  · have hmem : s.ball_paths.getD b.index [] ∈ s.ball_paths := by
      rw [List.getD_eq_getElem _ [] hidx]
      exact List.getElem_mem hidx
    have := hI.paths_vals hf _ hmem _
      (getLastD_mem (s.ball_paths.getD b.index []) 0 hnil)
    omega

/-- The advance phase preserves the invariant, never changes the
configuration, and — whenever it is the one to raise
`simulation_complete` — leaves a histogram totalling exactly `n_balls`
and statistics matching the last multiple-of-5 recompute. -/
theorem advance_balls_spec {s1 : State} (hI : Inv s1)
    (hf : s1.ball_falling = true) :
    Inv (advance_balls s1) ∧
    (advance_balls s1).n_balls = s1.n_balls ∧
    ((advance_balls s1).simulation_complete = true →
      (advance_balls s1).bins_count.sum = s1.n_balls ∧
      (advance_balls s1).balls_completed = s1.n_balls ∧
      (advance_balls s1).positions.length = s1.n_balls ∧
      (advance_balls s1).observed_mean =
        (if 5 ≤ s1.n_balls then
          list_mean ((advance_balls s1).positions.take (5 * (s1.n_balls / 5)))
         else 0) ∧
      (advance_balls s1).observed_std =
        (if 5 ≤ s1.n_balls then
          list_std ((advance_balls s1).positions.take (5 * (s1.n_balls / 5)))
         else 0)) := by
  obtain ⟨e1, e2, e3, e4, e5, e6, e7⟩ :=
    step_balls_spec s1.n_rows s1.geom_n_rows s1.ball_paths s1.ball_speed
      s1.plot_update_interval s1.balls_in_flight
      ⟨[], s1.positions, s1.bins_count, s1.balls_completed, s1.observed_mean,
        s1.observed_std, s1.plot_update_counter, s1.plot_needs_update⟩
      (fun b hb => flight_fp_lt hI hf hb)
  have hstats : AccStats (step_balls s1.n_rows s1.geom_n_rows s1.ball_paths
      s1.ball_speed s1.plot_update_interval s1.balls_in_flight
      ⟨[], s1.positions, s1.bins_count, s1.balls_completed, s1.observed_mean,
        s1.observed_std, s1.plot_update_counter, s1.plot_needs_update⟩) :=
    e7 ⟨hI.pos_len hf, hI.mean_inv hf, hI.std_inv hf⟩
  dsimp only at e1 e2 e3 e4 e5 e6
  simp only [List.length_nil, Nat.add_zero] at e2
  set r := step_balls s1.n_rows s1.geom_n_rows s1.ball_paths s1.ball_speed
      s1.plot_update_interval s1.balls_in_flight
      ⟨[], s1.positions, s1.bins_count, s1.balls_completed, s1.observed_mean,
        s1.observed_std, s1.plot_update_counter, s1.plot_needs_update⟩ with hr
  obtain ⟨hslen, hsmean, hsstd⟩ := hstats
  have hsum : r.bins.sum = r.completed := by
    have h := hI.sum_eq hf
    omega
  have hcount : r.completed + r.flight.length = s1.balls_dropped := by
    have h := hI.count_eq hf
    omega
  have hcap : r.flight.length ≤ s1.max_simultaneous_balls := by
    have h1 := hI.count_eq hf
    have h2 := hI.cap hf
    omega
  have hflidx : ∀ b' ∈ r.flight, b'.index < s1.n_balls := by
    intro b' hb'
    rcases e6 b' hb' with hb0 | ⟨c, hc, hcidx⟩
    · simp at hb0
    · rw [hcidx]
      exact hI.flight_idx hf c hc
  rw [advance_balls]
  dsimp only
  rw [← hr]
  by_cases hc : s1.n_balls ≤ s1.balls_dropped ∧ r.flight.length = 0
  · rw [if_pos hc]
    have hcompl : r.completed = s1.n_balls := by
      have h := hI.dropped_le hf
      omega
    refine ⟨?_, rfl, ?_⟩
    · exact
        { falling_not_stopped := fun h => by simp at h
          falling_not_complete := fun h => by simp at h
          sum_le := by dsimp only; omega
          sum_eq := fun h => by simp at h
          bins_len := fun h => by simp at h
          paths_len := fun h => by simp at h
          paths_vals := fun h => by simp at h
          flight_idx := fun h => by simp at h
          count_eq := fun h => by simp at h
          dropped_le := fun h => by simp at h
          cap := fun h => by simp at h
          pos_len := fun h => by simp at h
          mean_inv := fun h => by simp at h
          std_inv := fun h => by simp at h }
    · intro _
      refine ⟨by dsimp only; omega, hcompl, by dsimp only; omega, ?_, ?_⟩
      · dsimp only
        rw [hsmean, hcompl]
      · dsimp only
        rw [hsstd, hcompl]
  · rw [if_neg hc]
    have hncompl : ({ s1 with
        balls_in_flight := r.flight,
        positions := r.positions,
        bins_count := r.bins,
        balls_completed := r.completed,
        observed_mean := r.obs_mean,
        observed_std := r.obs_std,
        plot_update_counter := r.plot_counter,
        plot_needs_update := r.plot_needs } : State).simulation_complete
          = false := hI.falling_not_complete hf
    refine ⟨?_, rfl, fun h => absurd (h ▸ hncompl) (by simp)⟩
    exact
      { falling_not_stopped := fun _ => hI.falling_not_stopped hf
        falling_not_complete := fun _ => hI.falling_not_complete hf
        sum_le := by dsimp only; omega
        sum_eq := fun _ => by dsimp only; omega
        bins_len := fun _ => by dsimp only; rw [e1]; exact hI.bins_len hf
        paths_len := fun _ => hI.paths_len hf
        paths_vals := fun _ => hI.paths_vals hf
        flight_idx := fun _ => hflidx
        count_eq := fun _ => hcount
        dropped_le := fun _ => hI.dropped_le hf
        cap := fun _ => hcap
        pos_len := fun _ => hslen
        mean_inv := fun _ => hsmean
        std_inv := fun _ => hsstd }

/-- States with no active run satisfy the invariant as soon as the
histogram total is bounded by the completed count. -/
theorem inv_of_not_falling {s : State} (hf : s.ball_falling = false)
    (hsum : s.bins_count.sum ≤ s.balls_completed) : Inv s := by
  refine ⟨?_, ?_, hsum, ?_, ?_, ?_, ?_, ?_, ?_, ?_, ?_, ?_, ?_, ?_⟩ <;>
    (intro h; rw [hf] at h; simp at h)

/-- Replacing the delay counter preserves the invariant. -/
theorem inv_delay {s : State} (hI : Inv s) (q : ℚ) :
    Inv { s with delay_counter := q } :=
  ⟨hI.falling_not_stopped, hI.falling_not_complete, hI.sum_le, hI.sum_eq,
    hI.bins_len, hI.paths_len, hI.paths_vals, hI.flight_idx, hI.count_eq,
    hI.dropped_le, hI.cap, hI.pos_len, hI.mean_inv, hI.std_inv⟩

/-- Admission preserves the invariant. -/
theorem inv_admission {s : State} (hI : Inv s) : Inv (start_next_balls s) := by
  obtain ⟨new, heq, hmem, hd, hl⟩ := start_next_balls_spec s
  rw [heq]
  refine ⟨hI.falling_not_stopped, hI.falling_not_complete, hI.sum_le,
    hI.sum_eq, hI.bins_len, hI.paths_len, hI.paths_vals, ?_, ?_, ?_, ?_,
    hI.pos_len, hI.mean_inv, hI.std_inv⟩
  · intro h b hb
    rcases List.mem_append.mp hb with hb | hb
    · exact hI.flight_idx h b hb
    · exact (hmem b hb).2
  · intro h
    have := hI.count_eq h
    simp only [List.length_append]
    omega
  · intro h
    rcases hd with hd | rfl
    · exact hd
    · simpa using hI.dropped_le h
  · intro h
    simp only [List.length_append]
    rcases hl with hl | rfl
    · exact hl
    · have := hI.cap h
      simp only [List.length_nil]
      omega

/-- The tick preserves the invariant. -/
theorem inv_tick {s : State} (hI : Inv s) : Inv (update_animation s) := by
  by_cases hhalt : s.ball_falling = false ∨ s.paused = true ∨ s.stopped = true
  · rw [update_animation_halted hhalt]
    exact hI
  · have hf : s.ball_falling = true := by
      cases h : s.ball_falling
      · exact absurd (Or.inl h) hhalt
      · rfl
    rw [update_animation, if_neg hhalt]
    by_cases hdel : 0 < s.delay_counter
    · rw [if_pos hdel]
      exact (advance_balls_spec (inv_delay hI (s.delay_counter - 1)) hf).1
    · rw [if_neg hdel]
      dsimp only
      obtain ⟨new, heq, -, -, -⟩ := start_next_balls_spec s
      have hf2 : (start_next_balls s).ball_falling = true := by rw [heq]; exact hf
      exact (advance_balls_spec (inv_delay (inv_admission hI)
        (max 1 (30 - (start_next_balls s).ball_speed * (3 / 10)))) hf2).1

/-- Whenever a running tick raises `simulation_complete`, the resulting
histogram totals exactly `n_balls`, the outcome list holds all
`n_balls` outcomes, and the observed statistics are those of the last
multiple-of-5 recompute (0 when fewer than five outcomes exist). -/
theorem tick_complete {s : State} (hI : Inv s) (hf : s.ball_falling = true)
    (hc : (update_animation s).simulation_complete = true) :
    (update_animation s).bins_count.sum = s.n_balls ∧
    (update_animation s).balls_completed = s.n_balls ∧
    (update_animation s).positions.length = s.n_balls ∧
    (update_animation s).observed_mean =
      (if 5 ≤ s.n_balls then
        list_mean ((update_animation s).positions.take (5 * (s.n_balls / 5)))
       else 0) ∧
    (update_animation s).observed_std =
      (if 5 ≤ s.n_balls then
        list_std ((update_animation s).positions.take (5 * (s.n_balls / 5)))
       else 0) := by
  by_cases hhalt : s.ball_falling = false ∨ s.paused = true ∨ s.stopped = true
  · rw [update_animation_halted hhalt] at hc
    rw [hI.falling_not_complete hf] at hc
    simp at hc
  · rw [update_animation, if_neg hhalt] at hc ⊢
    by_cases hdel : 0 < s.delay_counter
    · rw [if_pos hdel] at hc ⊢
      exact (advance_balls_spec (inv_delay hI (s.delay_counter - 1)) hf).2.2 hc
    · rw [if_neg hdel] at hc ⊢
      dsimp only at hc ⊢
      obtain ⟨new, heq, -, -, -⟩ := start_next_balls_spec s
      have hf2 : (start_next_balls s).ball_falling = true := by
        rw [heq]; exact hf
      have h := (advance_balls_spec (inv_delay (inv_admission hI)
        (max 1 (30 - (start_next_balls s).ball_speed * (3 / 10)))) hf2).2.2 hc
      dsimp only at h
      have hnb : (start_next_balls s).n_balls = s.n_balls := by rw [heq]
      rw [← hnb]
      exact h

/-- `start_animation` written as `start_next_balls` of the fully reset
state. -/
theorem start_animation_eq (rand : ℕ → ℚ) (s : State) :
    start_animation rand s = start_next_balls
      { s with
        positions := ([] : List ℕ),
        bins_count := List.replicate (s.n_rows + 1) 0,
        balls_completed := 0,
        observed_mean := 0,
        observed_std := 0,
        simulation_complete := false,
        balls_dropped := 0,
        balls_in_flight := ([] : List FlightBall),
        ball_falling := true,
        paused := false,
        stopped := false,
        delay_counter := 0,
        plot_update_counter := 0,
        plot_needs_update := true,
        geom_n_rows := s.n_rows,
        ball_paths :=
          generate_ball_paths_fn s.n_balls s.n_rows s.probability rand } := by
  obtain ⟨bc, hu, hlen, -, -, -⟩ := update_bins_only_bins s
  rw [start_animation, hu]
  dsimp only
  rw [precalculate_positions,
    update_bins_id (by dsimp only; rw [List.length_replicate, hlen]),
    generate_ball_paths]
  dsimp only
  congr 1
  rw [hlen]

/-- `start_animation` establishes the invariant from any prior state. -/
theorem inv_start (rand : ℕ → ℚ) (s : State) : Inv (start_animation rand s) := by
  rw [start_animation_eq]
  apply inv_admission
  refine ⟨fun _ => rfl, fun _ => rfl, by simp, fun _ => by simp, fun _ => by simp,
    fun _ => generate_ball_paths_fn_length _ _ _ _, ?_, ?_, fun _ => rfl,
    fun _ => by simp, fun _ => by simp, fun _ => rfl, ?_, ?_⟩
  · intro _ p hp v hv
    obtain ⟨b, -, rfl⟩ := generate_ball_paths_fn_mem _ _ _ _ hp
    have := path_loop_mem_le s.probability rand s.n_rows (b * s.n_rows) 0 v hv
    simpa using this
  · intro _ b hb
    simp at hb
  · intro _
    dsimp only
    rw [if_neg (by omega)]
  · intro _
    dsimp only
    rw [if_neg (by omega)]

/-- Stop preserves the invariant. -/
theorem inv_stop {s : State} (hI : Inv s) : Inv (press_stop s) :=
  inv_of_not_falling rfl hI.sum_le

/-- Pause preserves the invariant. -/
theorem inv_pause {s : State} (hI : Inv s) : Inv (press_pause s) := by
  rw [press_pause]
  split
  · exact ⟨hI.falling_not_stopped, hI.falling_not_complete, hI.sum_le,
      hI.sum_eq, hI.bins_len, hI.paths_len, hI.paths_vals, hI.flight_idx,
      hI.count_eq, hI.dropped_le, hI.cap, hI.pos_len, hI.mean_inv, hI.std_inv⟩
  · exact hI

/-- The run button preserves the invariant. -/
theorem inv_run {s : State} (hI : Inv s) (rand : ℕ → ℚ) :
    Inv (press_run rand s) := by
  rw [press_run]
  split
  · exact hI
  · exact inv_start rand s

theorem update_bins_fields (s : State) :
    (update_bins_array_size s).ball_falling = s.ball_falling ∧
    (update_bins_array_size s).balls_completed = s.balls_completed ∧
    (update_bins_array_size s).bins_count.sum ≤ s.bins_count.sum := by
  obtain ⟨bc, hu, -, -, -, hsum⟩ := update_bins_only_bins s
  rw [hu]
  exact ⟨rfl, rfl, hsum⟩

theorem precalc_fields (s : State) :
    (precalculate_positions s).ball_falling = s.ball_falling ∧
    (precalculate_positions s).balls_completed = s.balls_completed ∧
    (precalculate_positions s).bins_count.sum ≤ s.bins_count.sum := by
  rw [precalculate_positions]
  exact update_bins_fields s

/-- Reset re-establishes the invariant. -/
theorem inv_reset (s : State) : Inv (reset_parameters s) := by
  rw [reset_parameters]
  apply inv_of_not_falling
  · rw [(precalc_fields _).1, calculate_theoretical_values]
    dsimp only
    rw [(update_bins_fields _).1]
  · rw [(precalc_fields _).2.1]
    refine le_trans (precalc_fields _).2.2 ?_
    rw [calculate_theoretical_values]
    dsimp only
    simp

/-- Any slider application preserves the invariant on an idle state. -/
theorem inv_apply_slider {s : State} (hf : s.ball_falling = false)
    (hsum : s.bins_count.sum ≤ s.balls_completed) (n : SliderName) (mx : ℚ) :
    Inv (apply_slider n mx s) := by
  cases n with
  | rows =>
    rw [apply_slider]
    dsimp only
    apply inv_of_not_falling
    · rw [calculate_theoretical_values]
      dsimp only
      rw [(precalc_fields _).1, (update_bins_fields _).1]
      exact hf
    · rw [calculate_theoretical_values]
      dsimp only
      obtain ⟨-, hc1, hs1⟩ := precalc_fields (update_bins_array_size _)
      rw [hc1, (update_bins_fields _).2.1]
      exact le_trans hs1 (le_trans (update_bins_fields _).2.2 hsum)
  | balls => exact inv_of_not_falling hf hsum
  | prob => exact inv_of_not_falling hf hsum
  | speed => exact inv_of_not_falling hf hsum
  | multi => exact inv_of_not_falling hf hsum

/-- Slider input preserves the invariant. -/
theorem inv_slider {s : State} (hI : Inv s) (mx my : ℚ) :
    Inv (handle_slider_input mx my s).1 := by
  rw [handle_slider_input]
  by_cases hg : s.ball_falling = true ∧ s.stopped = false
  · rw [if_pos hg]
    exact hI
  · rw [if_neg hg]
    have hf : s.ball_falling = false := by
      cases hfall : s.ball_falling
      · rfl
      · exact absurd ⟨hfall, hI.falling_not_stopped hfall⟩ hg
    split_ifs <;> dsimp only <;>
      first
        | exact hI
        | exact inv_apply_slider hf hI.sum_le _ mx

/-- Every reachable state satisfies the invariant. -/
theorem reach_inv {s0 s : State} (h : Reach s0 s) : Inv s := by
  induction h with
  | start rand => exact inv_start rand s0
  | tick _ ih => exact inv_tick ih
  | run rand _ ih => exact inv_run ih rand
  | pause _ ih => exact inv_pause ih
  | stop _ ih => exact inv_stop ih
  | reset _ ih => exact inv_reset _
  | slider mx my _ ih => exact inv_slider ih mx my

/-! ## A concrete degenerate run: zero balls, one row

`start_animation` admits no ball and the first tick immediately reaches
the Complete state.  Used by witnesses below. -/

/-- A concrete sample stream. -/
def wRand : ℕ → ℚ := fun _ => 0

/-- A concrete idle state configured with `n_balls = 0`, `n_rows = 1`. -/
noncomputable def w0State : State where
  n_balls := 0
  n_rows := 1
  probability := 1 / 2
  ball_speed := 6
  max_simultaneous_balls := 8
  plot_update_counter := 0
  plot_update_interval := 10
  ball_paths := []
  balls_in_flight := []
  balls_dropped := 0
  delay_counter := 0
  ball_falling := false
  paused := false
  stopped := false
  positions := []
  bins_count := [0, 0]
  balls_completed := 0
  observed_mean := 0
  observed_std := 0
  theoretical_mean := 0
  theoretical_std := 0
  simulation_complete := false
  plot_needs_update := false
  geom_n_rows := 1
  slider_balls := 500
  slider_rows := 12
  slider_prob := 1 / 2
  slider_speed := 6
  slider_multi := 8

/-- The state right after `start_animation` on `w0State`. -/
noncomputable def w1State : State :=
  { w0State with
    bins_count := List.replicate 2 0,
    ball_falling := true,
    plot_needs_update := true }

theorem w0_start : start_animation wRand w0State = w1State := by
  rw [start_animation_eq, start_next_balls_id _ (by
    intro h
    exact absurd h.2 (by decide))]
  rw [w1State]
  congr 1

theorem w1_falling : w1State.ball_falling = true := rfl

theorem w0_tick_eval :
    update_animation w1State =
      { w1State with
        delay_counter := max 1 (30 - w1State.ball_speed * (3 / 10)),
        ball_falling := false,
        simulation_complete := true,
        plot_needs_update := true } := by
  have hid : start_next_balls w1State = w1State :=
    start_next_balls_id _ (by intro h; exact absurd h.2 (by decide))
  rw [update_animation, if_neg (by decide), if_neg (by decide)]
  dsimp only
  rw [hid, advance_balls]
  dsimp only
  rw [show w1State.balls_in_flight = ([] : List FlightBall) from rfl, step_balls]
  rw [if_pos (by decide)]

/-! ## C2, C3, C8 -/

/-- **C2.** Histogram accounting: in every state reachable from a start
(the `1 ≤ n_rows` hypothesis keeps every path non-empty, so final-bin
lookups are well-defined in the source), the histogram total never
exceeds the completed count; during a run it equals `balls_completed`
exactly; and whenever a running tick reaches the Complete state the
histogram total is exactly `n_balls`. -/
theorem c2_histogram_accounting (s0 s : State) (hrows : 1 ≤ s0.n_rows)
    (hR : Reach s0 s) :
    s.bins_count.sum ≤ s.balls_completed ∧
    (s.ball_falling = true → s.bins_count.sum = s.balls_completed) ∧
    (s.ball_falling = true → (update_animation s).simulation_complete = true →
      (update_animation s).bins_count.sum = s.n_balls) := by
  have hI := reach_inv hR
  exact ⟨hI.sum_le, hI.sum_eq, fun hf hc => (tick_complete hI hf hc).1⟩

/-- Witness for C2: the zero-ball run completes on its first tick with
`sum(histogram) = n_balls = 0`. -/
theorem c2_witness :
    1 ≤ w0State.n_rows ∧
    (start_animation wRand w0State).ball_falling = true ∧
    (update_animation (start_animation wRand w0State)).simulation_complete
      = true ∧
    (update_animation (start_animation wRand w0State)).bins_count.sum
      = (start_animation wRand w0State).n_balls := by
  have hr : (1 : ℕ) ≤ w0State.n_rows := by decide
  have hf : (start_animation wRand w0State).ball_falling = true := by
    rw [w0_start]
    exact w1_falling
  have hc : (update_animation (start_animation wRand w0State)).simulation_complete
      = true := by
    rw [w0_start, w0_tick_eval]
  exact ⟨hr, hf, hc,
    (c2_histogram_accounting w0State _ hr (Reach.start wRand)).2.2 hf hc⟩

/-- **C3.** Concurrency cap: in every reachable state of a run with cap
at least 1, the in-flight count never exceeds `max_simultaneous_balls`;
and the admission loop is the identity unless the in-flight count is
strictly below the cap and undropped balls remain, only ever appending
new balls within both bounds. -/
theorem c3_concurrency_cap (s0 s : State)
    (hcap : 1 ≤ s0.max_simultaneous_balls) (hR : Reach s0 s) :
    (s.ball_falling = true →
      s.balls_in_flight.length ≤ s.max_simultaneous_balls) ∧
    (∀ s' : State,
      ¬(s'.balls_in_flight.length < s'.max_simultaneous_balls ∧
          s'.balls_dropped < s'.n_balls) →
      start_next_balls s' = s') ∧
    (∀ s' : State, ∃ new : List FlightBall,
      start_next_balls s' =
        { s' with
          balls_in_flight := s'.balls_in_flight ++ new,
          balls_dropped := s'.balls_dropped + new.length } ∧
      (s'.balls_dropped + new.length ≤ s'.n_balls ∨ new = []) ∧
      (s'.balls_in_flight.length + new.length ≤ s'.max_simultaneous_balls ∨
        new = [])) := by
  refine ⟨fun hf => (reach_inv hR).cap hf, fun s' h => start_next_balls_id s' h,
    fun s' => ?_⟩
  obtain ⟨new, heq, -, hd, hl⟩ := start_next_balls_spec s'
  exact ⟨new, heq, hd, hl⟩

/-- Witness for C3 at the started zero-ball run. -/
theorem c3_witness :
    1 ≤ w0State.max_simultaneous_balls ∧
    (start_animation wRand w0State).ball_falling = true ∧
    (start_animation wRand w0State).balls_in_flight.length ≤
      (start_animation wRand w0State).max_simultaneous_balls := by
  refine ⟨by decide, by rw [w0_start]; exact w1_falling, ?_⟩
  exact (c3_concurrency_cap w0State _ (by decide) (Reach.start wRand)).1
    (by rw [w0_start]; exact w1_falling)

/-- **C8 (amended).** Once a running tick reaches Complete, all
`n_balls` outcomes are recorded, but the displayed statistics are those
of the last multiple-of-5 recompute: the observed mean/stddev equal the
mean/stddev over the first `5·⌊n_balls/5⌋` outcomes when at least five
outcomes exist and the start-time value 0 otherwise; they equal the
full-list statistics whenever `5 ∣ n_balls`. -/
theorem c8_stats_throttling (s0 s : State) (hrows : 1 ≤ s0.n_rows)
    (hR : Reach s0 s) (hf : s.ball_falling = true)
    (hc : (update_animation s).simulation_complete = true) :
    (update_animation s).balls_completed = s.n_balls ∧
    (update_animation s).positions.length = s.n_balls ∧
    (update_animation s).observed_mean =
      (if 5 ≤ s.n_balls then
        list_mean ((update_animation s).positions.take (5 * (s.n_balls / 5)))
       else 0) ∧
    (update_animation s).observed_std =
      (if 5 ≤ s.n_balls then
        list_std ((update_animation s).positions.take (5 * (s.n_balls / 5)))
       else 0) ∧
    (5 ∣ s.n_balls →
      (update_animation s).observed_mean = list_mean (update_animation s).positions ∧
      (update_animation s).observed_std = list_std (update_animation s).positions) := by
  have hI := reach_inv hR
  obtain ⟨h1, h2, h3, h4, h5⟩ := tick_complete hI hf hc
  refine ⟨h2, h3, h4, h5, ?_⟩
  intro hdvd
  by_cases h5le : 5 ≤ s.n_balls
  · rw [h4, h5, if_pos h5le, if_pos h5le, Nat.mul_div_cancel' hdvd, ← h3,
      List.take_length]
    exact ⟨rfl, rfl⟩
  · have hz : s.n_balls = 0 := by omega
    have hpos : (update_animation s).positions = [] :=
      List.eq_nil_of_length_eq_zero (by rw [h3, hz])
    rw [h4, h5, if_neg h5le, if_neg h5le, hpos]
    constructor
    · rw [list_mean]
      simp
    · rw [list_std, list_mean]
      simp

/-- Witness for C8 (amended): in the completed zero-ball run fewer than
five outcomes exist, so the displayed mean is the start value 0. -/
theorem c8_witness :
    1 ≤ w0State.n_rows ∧
    (start_animation wRand w0State).ball_falling = true ∧
    (update_animation (start_animation wRand w0State)).simulation_complete
      = true ∧
    (update_animation (start_animation wRand w0State)).observed_mean =
      (if 5 ≤ (start_animation wRand w0State).n_balls then
        list_mean ((update_animation (start_animation wRand w0State)).positions.take
          (5 * ((start_animation wRand w0State).n_balls / 5)))
       else 0) := by
  have hr : (1 : ℕ) ≤ w0State.n_rows := by decide
  have hf : (start_animation wRand w0State).ball_falling = true := by
    rw [w0_start]
    exact w1_falling
  have hc : (update_animation (start_animation wRand w0State)).simulation_complete
      = true := by
    rw [w0_start, w0_tick_eval]
  exact ⟨hr, hf, hc,
    (c8_stats_throttling w0State _ hr (Reach.start wRand) hf hc).2.2.1⟩

/-! ## C7: configuration edits gated by the run state -/

/-- The five slider hit boxes are pairwise disjoint (their vertical
ranges are separated by 20px gaps). -/
theorem slider_hit_disjoint {n m : SliderName} {mx my : ℚ}
    (hn : slider_hit n mx my) (hm : slider_hit m mx my) : n = m := by
  cases n <;> cases m <;>
    first
      | rfl
      | (exfalso
         simp only [slider_hit, slider_top] at hn hm
         obtain ⟨-, -, hn3, hn4⟩ := hn
         obtain ⟨-, -, hm3, hm4⟩ := hm
         linarith)

/-- Outside an active run, a mouse position inside slider `n`'s hit box
makes `handle_slider_input` apply exactly that slider. -/
theorem slider_hit_apply {s : State} {mx my : ℚ}
    (hg : ¬(s.ball_falling = true ∧ s.stopped = false)) (n : SliderName)
    (hn : slider_hit n mx my) :
    handle_slider_input mx my s = (apply_slider n mx s, some n) := by
  rw [handle_slider_input, if_neg hg]
  cases n with
  | balls => rw [if_pos hn]
  | rows =>
    rw [if_neg (fun h => absurd (slider_hit_disjoint h hn) (by decide)),
      if_pos hn]
  | prob =>
    rw [if_neg (fun h => absurd (slider_hit_disjoint h hn) (by decide)),
      if_neg (fun h => absurd (slider_hit_disjoint h hn) (by decide)),
      if_pos hn]
  | speed =>
    rw [if_neg (fun h => absurd (slider_hit_disjoint h hn) (by decide)),
      if_neg (fun h => absurd (slider_hit_disjoint h hn) (by decide)),
      if_neg (fun h => absurd (slider_hit_disjoint h hn) (by decide)),
      if_pos hn]
  | multi =>
    rw [if_neg (fun h => absurd (slider_hit_disjoint h hn) (by decide)),
      if_neg (fun h => absurd (slider_hit_disjoint h hn) (by decide)),
      if_neg (fun h => absurd (slider_hit_disjoint h hn) (by decide)),
      if_neg (fun h => absurd (slider_hit_disjoint h hn) (by decide)),
      if_pos hn]

/-- **C7.** Configuration edits are rejected while a run is active: with
`ball_falling` set and the run not stopped, the slider handler returns
immediately and leaves the whole state (hence every configuration field)
unchanged; when no run is active, a click inside a slider's hit box is
accepted and applies exactly that slider. -/
theorem c7_config_edit_gating (s : State) (mx my : ℚ) :
    (s.ball_falling = true → s.stopped = false →
      handle_slider_input mx my s = (s, none)) ∧
    (¬(s.ball_falling = true ∧ s.stopped = false) →
      ∀ n : SliderName, slider_hit n mx my →
        handle_slider_input mx my s = (apply_slider n mx s, some n)) := by
  constructor
  · intro h1 h2
    rw [handle_slider_input, if_pos ⟨h1, h2⟩]
  · intro hg n hn
    exact slider_hit_apply hg n hn

/-- Witness for C7: a running state rejects the edit; the same click on
the idle base state lands on the speed slider and is applied. -/
theorem c7_witness :
    (({ baseState with ball_falling := true } : State).ball_falling = true ∧
      ({ baseState with ball_falling := true } : State).stopped = false ∧
      handle_slider_input 100 335 { baseState with ball_falling := true }
        = ({ baseState with ball_falling := true }, none)) ∧
    (baseState.ball_falling = false ∧
      slider_hit .speed 100 335 ∧
      handle_slider_input 100 335 baseState
        = (apply_slider .speed 100 baseState, some .speed)) :=
  ⟨⟨rfl, rfl, (c7_config_edit_gating _ 100 335).1 rfl rfl⟩,
    ⟨rfl, by simp only [slider_hit, slider_top]; norm_num,
      (c7_config_edit_gating baseState 100 335).2
        (fun h => absurd h.1 (by decide)) .speed
        (by simp only [slider_hit, slider_top]; norm_num)⟩⟩

/-! ## C9: configuration validity -/

/-- The validity domain named by the spec: `rowCount ≥ 1`,
`probability ∈ [0,1]`, `ballCount ≥ 1`, `maxConcurrentBalls ≥ 1`. -/
def validConfig (s : State) : Prop :=
  1 ≤ s.n_rows ∧ 0 ≤ s.probability ∧ s.probability ≤ 1 ∧ 1 ≤ s.n_balls ∧
    1 ≤ s.max_simultaneous_balls

/-- **C9 claim, as stated in the spec**: an invalid configuration is
rejected at start time — starting must either refuse to begin a run or
leave the state untouched. -/
def c9_claim_prop : Prop :=
  ∀ (s : State) (rand : ℕ → ℚ), ¬ validConfig s →
    (start_animation rand s).ball_falling = false ∨ start_animation rand s = s

/-- **C9 counterexample.** `start_animation` performs no validation: on
the invalid configuration `n_balls = 0` it still starts a run
(`ball_falling` becomes true and the state is rebuilt). -/
theorem c9_counterexample : ¬ c9_claim_prop := by
  intro h
  have hbad : ¬ validConfig w0State := by
    intro hv
    exact absurd hv.2.2.2.1 (by decide)
  rcases h w0State wRand hbad with hf | heq
  · rw [w0_start] at hf
    exact absurd hf (by decide)
  · have hproj := congrArg State.ball_falling heq
    rw [w0_start] at hproj
    exact absurd hproj (by decide)

theorem one_le_tonat_clamp (lo hi x : ℤ) (h : 1 ≤ lo) :
    1 ≤ (max lo (min hi x)).toNat := by
  have := le_max_left lo (min hi x)
  omega

theorem prob_clamp_bounds (q : ℚ) :
    0 ≤ max (1 / 10) (min (9 / 10) q) ∧ max (1 / 10) (min (9 / 10) q) ≤ 1 := by
  constructor
  · exact le_trans (by norm_num) (le_max_left (1 / 10 : ℚ) (min (9 / 10) q))
  · exact max_le (by norm_num)
      (le_trans (min_le_left (9 / 10 : ℚ) q) (by norm_num))

theorem valid_update_bins {s : State} (hv : validConfig s) :
    validConfig (update_bins_array_size s) := by
  obtain ⟨bc, hu, -, -, -, -⟩ := update_bins_only_bins s
  rw [hu]
  exact hv

theorem valid_precalc {s : State} (hv : validConfig s) :
    validConfig (precalculate_positions s) := by
  rw [precalculate_positions]
  exact valid_update_bins hv

theorem valid_calc_theo {s : State} (hv : validConfig s) :
    validConfig (calculate_theoretical_values s) := hv

/-- Every slider application clamps into the slider range, so validity
of the configuration is preserved (indeed re-established for the edited
field). -/
theorem apply_slider_valid (s : State) (hv : validConfig s) (n : SliderName)
    (mx : ℚ) : validConfig (apply_slider n mx s) := by
  obtain ⟨h1, h2, h3, h4, h5⟩ := hv
  cases n with
  | balls =>
    rw [apply_slider]
    exact ⟨h1, h2, h3, one_le_tonat_clamp 100 1000 _ (by norm_num), h5⟩
  | rows =>
    rw [apply_slider]
    dsimp only
    exact valid_calc_theo (valid_precalc (valid_update_bins
      ⟨one_le_tonat_clamp 5 18 _ (by norm_num), h2, h3, h4, h5⟩))
  | prob =>
    rw [apply_slider]
    exact ⟨h1, (prob_clamp_bounds _).1, (prob_clamp_bounds _).2, h4, h5⟩
  | speed =>
    rw [apply_slider]
    exact ⟨h1, h2, h3, h4, h5⟩
  | multi =>
    rw [apply_slider]
    exact ⟨h1, h2, h3, h4, one_le_tonat_clamp 1 25 _ (by norm_num)⟩

/-- The advance phase never touches the configuration. -/
theorem advance_config (s1 : State) :
    (advance_balls s1).n_rows = s1.n_rows ∧
    (advance_balls s1).probability = s1.probability ∧
    (advance_balls s1).n_balls = s1.n_balls ∧
    (advance_balls s1).max_simultaneous_balls = s1.max_simultaneous_balls := by
  rw [advance_balls]
  dsimp only
  split <;> exact ⟨rfl, rfl, rfl, rfl⟩

theorem valid_tick {s : State} (hv : validConfig s) :
    validConfig (update_animation s) := by
  by_cases hhalt : s.ball_falling = false ∨ s.paused = true ∨ s.stopped = true
  · rw [update_animation_halted hhalt]
    exact hv
  · rw [update_animation, if_neg hhalt]
    by_cases hdel : 0 < s.delay_counter
    · rw [if_pos hdel]
      obtain ⟨a1, a2, a3, a4⟩ :=
        advance_config { s with delay_counter := s.delay_counter - 1 }
      exact ⟨by rw [a1]; exact hv.1, by rw [a2]; exact hv.2.1,
        by rw [a2]; exact hv.2.2.1, by rw [a3]; exact hv.2.2.2.1,
        by rw [a4]; exact hv.2.2.2.2⟩
    · rw [if_neg hdel]
      dsimp only
      obtain ⟨new, heq, -, -, -⟩ := start_next_balls_spec s
      obtain ⟨a1, a2, a3, a4⟩ := advance_config
        { start_next_balls s with
          delay_counter := max 1 (30 - (start_next_balls s).ball_speed * (3 / 10)) }
      refine ⟨?_, ?_, ?_, ?_, ?_⟩
      · rw [a1]; dsimp only; rw [heq]; exact hv.1
      · rw [a2]; dsimp only; rw [heq]; exact hv.2.1
      · rw [a2]; dsimp only; rw [heq]; exact hv.2.2.1
      · rw [a3]; dsimp only; rw [heq]; exact hv.2.2.2.1
      · rw [a4]; dsimp only; rw [heq]; exact hv.2.2.2.2

theorem valid_start (s : State) (rand : ℕ → ℚ) :
    validConfig s → validConfig (start_animation rand s) := by
  intro hv
  rw [start_animation_eq]
  obtain ⟨new, heq, -, -, -⟩ := start_next_balls_spec
    { s with
      positions := ([] : List ℕ),
      bins_count := List.replicate (s.n_rows + 1) 0,
      balls_completed := 0,
      observed_mean := 0,
      observed_std := 0,
      simulation_complete := false,
      balls_dropped := 0,
      balls_in_flight := ([] : List FlightBall),
      ball_falling := true,
      paused := false,
      stopped := false,
      delay_counter := 0,
      plot_update_counter := 0,
      plot_needs_update := true,
      geom_n_rows := s.n_rows,
      ball_paths :=
        generate_ball_paths_fn s.n_balls s.n_rows s.probability rand }
  rw [heq]
  exact hv

theorem start_always_falling (s : State) (rand : ℕ → ℚ) :
    (start_animation rand s).ball_falling = true := by
  rw [start_animation_eq]
  obtain ⟨new, heq, -, -, -⟩ := start_next_balls_spec
    { s with
      positions := ([] : List ℕ),
      bins_count := List.replicate (s.n_rows + 1) 0,
      balls_completed := 0,
      observed_mean := 0,
      observed_std := 0,
      simulation_complete := false,
      balls_dropped := 0,
      balls_in_flight := ([] : List FlightBall),
      ball_falling := true,
      paused := false,
      stopped := false,
      delay_counter := 0,
      plot_update_counter := 0,
      plot_needs_update := true,
      geom_n_rows := s.n_rows,
      ball_paths :=
        generate_ball_paths_fn s.n_balls s.n_rows s.probability rand }
  rw [heq]

theorem valid_reset (s : State) : validConfig (reset_parameters s) := by
  rw [reset_parameters]
  exact valid_precalc (valid_calc_theo (valid_update_bins
    ⟨by norm_num, by norm_num, by norm_num, by norm_num, by norm_num⟩))

/-- **C9 (amended).** The source performs no validation and raises no
error: `start_animation` unconditionally begins a run.  Instead the
slider handler clamps every configuration value into its slider range,
whose bounds are all valid, and every other operation leaves the
configuration fields intact — so a valid configuration can never become
invalid through the program's own interface. -/
theorem c9_validity_clamping (s : State) (hv : validConfig s) :
    (∀ mx my : ℚ, validConfig (handle_slider_input mx my s).1) ∧
    (∀ rand : ℕ → ℚ, validConfig (start_animation rand s) ∧
      (start_animation rand s).ball_falling = true) ∧
    validConfig (press_stop s) ∧
    validConfig (press_pause s) ∧
    validConfig (reset_parameters s) ∧
    validConfig (update_animation s) := by
  refine ⟨?_, fun rand => ⟨valid_start s rand hv, start_always_falling s rand⟩,
    hv, ?_, valid_reset s, valid_tick hv⟩
  · intro mx my
    rw [handle_slider_input]
    by_cases hg : s.ball_falling = true ∧ s.stopped = false
    · rw [if_pos hg]
      exact hv
    · rw [if_neg hg]
      split_ifs <;> dsimp only <;>
        first
          | exact hv
          | exact apply_slider_valid s hv _ mx
  · rw [press_pause]
    split
    · exact hv
    · exact hv

/-- Witness for C9 (amended) at the concrete default configuration. -/
theorem c9_witness :
    validConfig baseState ∧
    validConfig (handle_slider_input 100 335 baseState).1 ∧
    validConfig (reset_parameters baseState) ∧
    (start_animation wRand baseState).ball_falling = true := by
  have hv : validConfig baseState := by
    refine ⟨by decide, by norm_num [baseState], by norm_num [baseState],
      by decide, by decide⟩
  have h := c9_validity_clamping baseState hv
  exact ⟨hv, h.1 100 335, h.2.2.2.2.1, (h.2.1 wRand).2⟩

/-! ## C10: histogram resize preserves the prefix -/

/-- **C10.** `update_bins_array_size` resizes the histogram to exactly
`n_rows + 1` bins, copying the existing counts over the overlapping
prefix and zero-filling the rest — it never zeroes surviving counts.
Consequently, a row-count edit through the slider handler outside an
active run (e.g. after a completed run) keeps the old counts in bins
`0 .. min(oldRowCount, newRowCount)`. -/
theorem c10_bins_resize_preserves_counts (s : State) :
    ((update_bins_array_size s).bins_count.length = s.n_rows + 1 ∧
      (∀ i < min s.bins_count.length (s.n_rows + 1),
        (update_bins_array_size s).bins_count.getD i 0
          = s.bins_count.getD i 0) ∧
      (∀ i, s.bins_count.length ≤ i →
        (update_bins_array_size s).bins_count.getD i 0 = 0)) ∧
    (∀ mx my : ℚ, ¬(s.ball_falling = true ∧ s.stopped = false) →
      slider_hit .rows mx my →
      (handle_slider_input mx my s).1.bins_count.length
          = (handle_slider_input mx my s).1.n_rows + 1 ∧
      (∀ i < min s.bins_count.length ((handle_slider_input mx my s).1.n_rows + 1),
        (handle_slider_input mx my s).1.bins_count.getD i 0
          = s.bins_count.getD i 0)) := by
  constructor
  · obtain ⟨bc, hu, hlen, hpre, hzero, -⟩ := update_bins_only_bins s
    rw [hu]
    exact ⟨hlen, hpre, hzero⟩
  · intro mx my hg hn
    rw [slider_hit_apply hg .rows hn]
    dsimp only
    rw [apply_slider]
    dsimp only
    obtain ⟨bc, hu, hlen, hpre, -, -⟩ := update_bins_only_bins
      { s with
        slider_rows :=
          ((max 5 (min 18 (py_round
            (5 + max 0 (min 1 ((mx - 40) / 200)) * 13))) : ℤ) : ℚ),
        n_rows := (max 5 (min 18 (py_round
          (5 + max 0 (min 1 ((mx - 40) / 200)) * 13)))).toNat }
    rw [hu, precalculate_positions, update_bins_id (by dsimp only; exact hlen),
      calculate_theoretical_values]
    dsimp only
    exact ⟨hlen, hpre⟩

/-- Witness for C10: a histogram `[3, 5]` surviving a resize to 5 bins,
and a rows-slider edit on an idle state. -/
theorem c10_witness :
    (update_bins_array_size
        { baseState with bins_count := [3, 5], n_rows := 4 }).bins_count.length
      = 5 ∧
    (update_bins_array_size
        { baseState with bins_count := [3, 5], n_rows := 4 }).bins_count.getD 1 0
      = 5 ∧
    ¬(baseState.ball_falling = true ∧ baseState.stopped = false) ∧
    slider_hit .rows 100 200 ∧
    (handle_slider_input 100 200 baseState).1.bins_count.length
      = (handle_slider_input 100 200 baseState).1.n_rows + 1 := by
  have h := c10_bins_resize_preserves_counts
    { baseState with bins_count := [3, 5], n_rows := 4 }
  have hg : ¬(baseState.ball_falling = true ∧ baseState.stopped = false) :=
    fun hx => absurd hx.1 (by decide)
  have hhit : slider_hit .rows 100 200 := by
    simp only [slider_hit, slider_top]
    norm_num
  refine ⟨h.1.1, ?_, hg, hhit,
    ((c10_bins_resize_preserves_counts baseState).2 100 200 hg hhit).1⟩
  exact h.1.2.1 1 (by norm_num)

/-! ## A concrete one-ball run

With `n_balls = 1`, `n_rows = 1`, `probability = 1/2`, `ball_speed = 15`
and the all-zero sample stream, the single ball's path is `[1]`: it
falls from its spawn point (600,120) to the first peg (600,160) and then
to bin 1 at (740,520), where it finalizes.  The bin leg has length
`20·√373`, so twelve move steps of length 30 precede the final snap. -/

/-- A concrete idle state configured for the one-ball run. -/
noncomputable def t0State : State where
  n_balls := 1
  n_rows := 1
  probability := 1 / 2
  ball_speed := 15
  max_simultaneous_balls := 8
  plot_update_counter := 0
  plot_update_interval := 10
  ball_paths := []
  balls_in_flight := []
  balls_dropped := 0
  delay_counter := 0
  ball_falling := false
  paused := false
  stopped := false
  positions := []
  bins_count := [0, 0]
  balls_completed := 0
  observed_mean := 0
  observed_std := 0
  theoretical_mean := 0
  theoretical_std := 0
  simulation_complete := false
  plot_needs_update := false
  geom_n_rows := 1
  slider_balls := 500
  slider_rows := 12
  slider_prob := 1 / 2
  slider_speed := 6
  slider_multi := 8

theorem sqrt373_pos : 0 < Real.sqrt 373 := Real.sqrt_pos.mpr (by norm_num)

theorem sqrt373_gt : (19 : ℝ) < Real.sqrt 373 :=
  (Real.lt_sqrt (by norm_num)).mpr (by norm_num)

theorem sqrt373_lt : Real.sqrt 373 < 39 / 2 :=
  (Real.sqrt_lt' (by norm_num)).mpr (by norm_num)

theorem sq_sqrt373 : Real.sqrt 373 ^ 2 = 373 := Real.sq_sqrt (by norm_num)

theorem gen_paths_t0 :
    generate_ball_paths_fn 1 1 (1 / 2) wRand = [[1]] := by
  rw [generate_ball_paths_fn]
  simp only [show List.range 1 = [0] from rfl, List.map_cons, List.map_nil,
    path_loop]
  norm_num [wRand]

theorem peg_1_0_0 : pegPosition 1 0 0 = (600, 160) := by
  norm_num [pegPosition, min_def, max_def]

theorem bin_1_1 : get_bin_position 1 1 = (740, 520) := by
  norm_num [get_bin_position, binPosition, min_def, max_def]

/-- The single admitted ball: spawned above the first peg. -/
theorem new_ball_t0 (s : State) (hg : s.geom_n_rows = 1)
    (hd : s.balls_dropped = 0) :
    new_ball s = ⟨0, 0, 600, 120, 600, 160⟩ := by
  rw [new_ball, if_pos (by rw [hg]; norm_num), hg, hd, peg_1_0_0]
  dsimp only
  push_cast
  rw [clamp_position_id (by norm_num) (by norm_num) (by norm_num) (by norm_num),
    clamp_position_id (by norm_num) (by norm_num) (by norm_num) (by norm_num)]

/-- Mid-run states of the one-ball run: a single in-flight ball and a
delay counter, everything else fixed by `start_animation` on `t0State`. -/
noncomputable def tState (fl : List FlightBall) (delay : ℚ) : State where
  n_balls := 1
  n_rows := 1
  probability := 1 / 2
  ball_speed := 15
  max_simultaneous_balls := 8
  plot_update_counter := 0
  plot_update_interval := 10
  ball_paths := [[1]]
  balls_in_flight := fl
  balls_dropped := 1
  delay_counter := delay
  ball_falling := true
  paused := false
  stopped := false
  positions := []
  bins_count := [0, 0]
  balls_completed := 0
  observed_mean := 0
  observed_std := 0
  theoretical_mean := 0
  theoretical_std := 0
  simulation_complete := false
  plot_needs_update := true
  geom_n_rows := 1
  slider_balls := 500
  slider_rows := 12
  slider_prob := 1 / 2
  slider_speed := 6
  slider_multi := 8

/-- The ball on its bin leg after `k` move steps. -/
noncomputable def ballC (k : ℕ) : FlightBall :=
  ⟨0, 1, 600 + 210 * k / Real.sqrt 373, 160 + 540 * k / Real.sqrt 373,
    740, 520⟩

theorem t_start :
    start_animation wRand t0State = tState [⟨0, 0, 600, 120, 600, 160⟩] 0 := by
  rw [start_animation_eq, start_next_balls, if_pos (by decide),
    new_ball_t0 _ rfl rfl, start_next_balls_id _ (by decide)]
  simp only [t0State, tState]
  apply State.ext <;> first | rfl | rw [gen_paths_t0]

/-- A running tick with a pending delay and a single ball that stays in
flight: decrement the delay, replace the ball. -/
theorem tick_one_ball_kept {s : State} {b b' : FlightBall}
    (hf : s.ball_falling = true) (hp : s.paused = false)
    (hs : s.stopped = false) (hd : 0 < s.delay_counter)
    (hfl : s.balls_in_flight = [b])
    (hpb : process_ball s.n_rows s.geom_n_rows s.ball_paths s.ball_speed b
      = .kept b') :
    update_animation s =
      { s with
        delay_counter := s.delay_counter - 1,
        balls_in_flight := [b'] } := by
  rw [update_animation, if_neg (by simp [hf, hp, hs]), if_pos hd, advance_balls]
  dsimp only
  rw [hfl]
  simp only [step_balls, hpb]
  rw [if_neg (by
    intro hx
    simp at hx)]
  simp

/-- Spawn-to-peg move: distance 40, one step of 30 toward the peg. -/
theorem process_spawn_move :
    process_ball 1 1 [[1]] 15 ⟨0, 0, 600, 120, 600, 160⟩ =
      .kept ⟨0, 0, 600, 150, 600, 160⟩ := by
  have c1 : clamp_position (600 : ℝ) 120 = (600, 120) :=
    clamp_position_id (by norm_num) (by norm_num) (by norm_num) (by norm_num)
  have c2 : clamp_position (600 : ℝ) 160 = (600, 160) :=
    clamp_position_id (by norm_num) (by norm_num) (by norm_num) (by norm_num)
  obtain ⟨hdx, hdy, hdsq⟩ := ball_geom_of_inrange 0 0 600 120 600 160
    (by norm_num) (by norm_num) (by norm_num) (by norm_num)
    (by norm_num) (by norm_num) (by norm_num) (by norm_num)
  have hdsq' : ball_dsq ⟨0, 0, 600, 120, 600, 160⟩ = 1600 := by
    rw [hdsq]; norm_num
  have hdx' : ball_dx ⟨0, 0, 600, 120, 600, 160⟩ = 0 := by rw [hdx]; norm_num
  have hdy' : ball_dy ⟨0, 0, 600, 120, 600, 160⟩ = 40 := by rw [hdy]; norm_num
  have hsq : Real.sqrt 1600 = 40 := by
    rw [show (1600 : ℝ) = 40 ^ 2 by norm_num,
      Real.sqrt_sq (by norm_num : (0 : ℝ) ≤ 40)]
  rw [process_ball, if_neg (by rw [hdsq', tick_step_fifteen]; norm_num),
    move_step]
  simp only [hdx', hdy', hdsq', tick_step_fifteen, c1, c2]
  rw [if_pos (by norm_num : (0 : ℝ) < 1600)]
  simp only [hsq]
  norm_num
  rw [clamp_position_id (by norm_num) (by norm_num) (by norm_num) (by norm_num)]
  exact ⟨rfl, rfl⟩

/-- Arrival at the first peg: snap, advance to row 1, aim at bin 1. -/
theorem process_peg_arrival :
    process_ball 1 1 [[1]] 15 ⟨0, 0, 600, 150, 600, 160⟩ =
      .kept ⟨0, 1, 600, 160, 740, 520⟩ := by
  have c2 : clamp_position (600 : ℝ) 160 = (600, 160) :=
    clamp_position_id (by norm_num) (by norm_num) (by norm_num) (by norm_num)
  obtain ⟨hdx, hdy, hdsq⟩ := ball_geom_of_inrange 0 0 600 150 600 160
    (by norm_num) (by norm_num) (by norm_num) (by norm_num)
    (by norm_num) (by norm_num) (by norm_num) (by norm_num)
  have hdsq' : ball_dsq ⟨0, 0, 600, 150, 600, 160⟩ = 100 := by
    rw [hdsq]; norm_num
  have c3 : clamp_position ((740 : ℤ) : ℝ) ((520 : ℤ) : ℝ) = (740, 520) := by
    push_cast
    exact clamp_position_id (by norm_num) (by norm_num) (by norm_num)
      (by norm_num)
  rw [process_ball, if_pos (by rw [hdsq', tick_step_fifteen]; norm_num),
    arrival_step]
  rw [if_pos
    (by decide : (⟨0, 0, 600, 150, 600, 160⟩ : FlightBall).currentRow < 1)]
  simp only [c2]
  rw [if_neg
    (by decide :
      ¬ (⟨0, 0, 600, 150, 600, 160⟩ : FlightBall).currentRow + 1 < 1)]
  rw [show (([[1]] : List (List ℕ)).getD
      (⟨0, 0, 600, 150, 600, 160⟩ : FlightBall).index []).getLastD 0 = 1
    from by decide]
  rw [bin_1_1, c3]

set_option maxHeartbeats 1600000 in
/-- One move step on the bin leg: the distance is `20√373 - 30k ≥ 30`,
and moving 30 along the unit direction adds `(210, 540)/√373`. -/
theorem process_leg_move (k : ℕ) (hk : k ≤ 11) :
    process_ball 1 1 [[1]] 15 (ballC k) = .kept (ballC (k + 1)) := by
  have u_pos := sqrt373_pos
  have u_gt := sqrt373_gt
  have u_ne : Real.sqrt 373 ≠ 0 := ne_of_gt u_pos
  have hu2 : Real.sqrt 373 ^ 2 = 373 := sq_sqrt373
  have hkr : (k : ℝ) ≤ 11 := by exact_mod_cast hk
  have hk0 : (0 : ℝ) ≤ (k : ℝ) := Nat.cast_nonneg k
  have bound : ∀ m : ℝ, 0 ≤ m → m ≤ 12 →
      320 ≤ 600 + 210 * m / Real.sqrt 373 ∧
      600 + 210 * m / Real.sqrt 373 ≤ 880 ∧
      120 ≤ 160 + 540 * m / Real.sqrt 373 ∧
      160 + 540 * m / Real.sqrt 373 ≤ 560 := by
    intro m hm0 hm12
    have h1 : 0 ≤ 210 * m / Real.sqrt 373 := by positivity
    have h2 : 210 * m / Real.sqrt 373 ≤ 2520 / 19 :=
      div_le_div (by norm_num) (by nlinarith) (by norm_num) (le_of_lt u_gt)
    have h3 : 0 ≤ 540 * m / Real.sqrt 373 := by positivity
    have h4 : 540 * m / Real.sqrt 373 ≤ 6480 / 19 :=
      div_le_div (by norm_num) (by nlinarith) (by norm_num) (le_of_lt u_gt)
    exact ⟨by linarith, by linarith, by linarith, by linarith⟩
  obtain ⟨bx1, bx2, by1, by2⟩ := bound (k : ℝ) hk0 (by linarith)
  obtain ⟨cx1, cx2, cy1, cy2⟩ := bound ((k : ℝ) + 1) (by positivity) (by linarith)
  obtain ⟨hdx, hdy, hdsq⟩ := ball_geom_of_inrange 0 1
    (600 + 210 * k / Real.sqrt 373) (160 + 540 * k / Real.sqrt 373) 740 520
    bx1 bx2 by1 by2 (by norm_num) (by norm_num) (by norm_num) (by norm_num)
  have c1 : clamp_position (600 + 210 * (k : ℝ) / Real.sqrt 373)
      (160 + 540 * (k : ℝ) / Real.sqrt 373)
        = (600 + 210 * (k : ℝ) / Real.sqrt 373,
           160 + 540 * (k : ℝ) / Real.sqrt 373) :=
    clamp_position_id bx1 bx2 by1 by2
  have c2 : clamp_position (740 : ℝ) 520 = (740, 520) :=
    clamp_position_id (by norm_num) (by norm_num) (by norm_num) (by norm_num)
  have htpos : (0 : ℝ) < 20 * Real.sqrt 373 - 30 * k := by nlinarith
  have ht30 : (30 : ℝ) ≤ 20 * Real.sqrt 373 - 30 * k := by nlinarith
  have hdx2 : ball_dx ⟨0, 1, 600 + 210 * (k : ℝ) / Real.sqrt 373,
      160 + 540 * (k : ℝ) / Real.sqrt 373, 740, 520⟩
        = 7 * (20 * Real.sqrt 373 - 30 * k) / Real.sqrt 373 := by
    rw [hdx]
    field_simp
    ring
  have hdy2 : ball_dy ⟨0, 1, 600 + 210 * (k : ℝ) / Real.sqrt 373,
      160 + 540 * (k : ℝ) / Real.sqrt 373, 740, 520⟩
        = 18 * (20 * Real.sqrt 373 - 30 * k) / Real.sqrt 373 := by
    rw [hdy]
    field_simp
    ring
  have hdsq2 : ball_dsq ⟨0, 1, 600 + 210 * (k : ℝ) / Real.sqrt 373,
      160 + 540 * (k : ℝ) / Real.sqrt 373, 740, 520⟩
        = (20 * Real.sqrt 373 - 30 * k) ^ 2 := by
    rw [hdsq]
    field_simp
    nlinarith [hu2]
  have hsq : Real.sqrt ((20 * Real.sqrt 373 - 30 * (k : ℝ)) ^ 2)
      = 20 * Real.sqrt 373 - 30 * k := Real.sqrt_sq (le_of_lt htpos)
  have ht_ne : (20 * Real.sqrt 373 - 30 * (k : ℝ)) ≠ 0 := ne_of_gt htpos
  have hstep : ∀ c : ℝ,
      30 * (c * (20 * Real.sqrt 373 - 30 * k) / Real.sqrt 373) /
        (20 * Real.sqrt 373 - 30 * k) = 30 * c / Real.sqrt 373 := by
    intro c
    have inner : c * (20 * Real.sqrt 373 - 30 * (k : ℝ)) / Real.sqrt 373 /
        (20 * Real.sqrt 373 - 30 * (k : ℝ)) = c / Real.sqrt 373 := by
      rw [div_div, mul_comm (Real.sqrt 373), ← div_div, mul_div_assoc,
        div_self ht_ne, mul_one]
    rw [mul_div_assoc, inner, mul_div_assoc]
  have hmx : 600 + 210 * (k : ℝ) / Real.sqrt 373 +
      30 * (7 * (20 * Real.sqrt 373 - 30 * k) / Real.sqrt 373) /
        (20 * Real.sqrt 373 - 30 * k)
      = 600 + 210 * ((k : ℝ) + 1) / Real.sqrt 373 := by
    rw [hstep 7]
    ring
  have hmy : 160 + 540 * (k : ℝ) / Real.sqrt 373 +
      30 * (18 * (20 * Real.sqrt 373 - 30 * k) / Real.sqrt 373) /
        (20 * Real.sqrt 373 - 30 * k)
      = 160 + 540 * ((k : ℝ) + 1) / Real.sqrt 373 := by
    rw [hstep 18]
    ring
  have c4 : clamp_position (600 + 210 * ((k : ℝ) + 1) / Real.sqrt 373)
      (160 + 540 * ((k : ℝ) + 1) / Real.sqrt 373)
        = (600 + 210 * ((k : ℝ) + 1) / Real.sqrt 373,
           160 + 540 * ((k : ℝ) + 1) / Real.sqrt 373) :=
    clamp_position_id cx1 cx2 cy1 cy2
  simp only [ballC]
  rw [process_ball, if_neg (by rw [hdsq2, tick_step_fifteen]; nlinarith),
    move_step]
  simp only [hdx2, hdy2, hdsq2, tick_step_fifteen, c1, c2, hsq]
  rw [if_pos (by nlinarith : (0 : ℝ) <
    (20 * Real.sqrt 373 - 30 * (k : ℝ)) ^ 2)]
  rw [hmx, hmy, c4]
  push_cast
  rfl

/-- The final snap into the bin: at `k = 12` the remaining distance is
`20√373 - 360 ∈ (0, 30)`, so the ball arrives and finalizes in bin 1. -/
theorem process_leg_finish :
    process_ball 1 1 [[1]] 15 (ballC 12) = .finished 1 := by
  have u_pos := sqrt373_pos
  have u_gt := sqrt373_gt
  have u_lt := sqrt373_lt
  have u_ne : Real.sqrt 373 ≠ 0 := ne_of_gt u_pos
  have hu2 : Real.sqrt 373 ^ 2 = 373 := sq_sqrt373
  have bx1 : (320 : ℝ) ≤ 600 + 210 * 12 / Real.sqrt 373 := by
    have h1 : (0 : ℝ) ≤ 210 * 12 / Real.sqrt 373 := by positivity
    linarith
  have bx2 : 600 + 210 * (12 : ℝ) / Real.sqrt 373 ≤ 880 := by
    have h2 : 210 * (12 : ℝ) / Real.sqrt 373 ≤ 2520 / 19 :=
      div_le_div (by norm_num) (by norm_num) (by norm_num) (le_of_lt u_gt)
    linarith
  have by1 : (120 : ℝ) ≤ 160 + 540 * 12 / Real.sqrt 373 := by
    have h3 : (0 : ℝ) ≤ 540 * 12 / Real.sqrt 373 := by positivity
    linarith
  have by2 : 160 + 540 * (12 : ℝ) / Real.sqrt 373 ≤ 560 := by
    have h4 : 540 * (12 : ℝ) / Real.sqrt 373 ≤ 6480 / 19 :=
      div_le_div (by norm_num) (by norm_num) (by norm_num) (le_of_lt u_gt)
    linarith
  obtain ⟨hdx, hdy, hdsq⟩ := ball_geom_of_inrange 0 1
    (600 + 210 * 12 / Real.sqrt 373) (160 + 540 * 12 / Real.sqrt 373) 740 520
    bx1 bx2 by1 by2 (by norm_num) (by norm_num) (by norm_num) (by norm_num)
  have hdsq2 : ball_dsq ⟨0, 1, 600 + 210 * (12 : ℝ) / Real.sqrt 373,
      160 + 540 * (12 : ℝ) / Real.sqrt 373, 740, 520⟩
        = (20 * Real.sqrt 373 - 360) ^ 2 := by
    rw [hdsq]
    field_simp
    nlinarith [hu2]
  have htpos : (0 : ℝ) < 20 * Real.sqrt 373 - 360 := by nlinarith
  have htlt : 20 * Real.sqrt 373 - 360 < 30 := by nlinarith
  simp only [ballC]
  push_cast
  rw [process_ball, if_pos (by rw [hdsq2, tick_step_fifteen]; nlinarith),
    arrival_step]
  rw [if_neg (by norm_num :
    ¬ (⟨0, 1, 600 + 210 * (12 : ℝ) / Real.sqrt 373,
      160 + 540 * (12 : ℝ) / Real.sqrt 373, 740, 520⟩ : FlightBall).currentRow
        < 1)]
  rw [show (([[1]] : List (List ℕ)).getD
      (⟨0, 1, 600 + 210 * (12 : ℝ) / Real.sqrt 373,
        160 + 540 * (12 : ℝ) / Real.sqrt 373, 740, 520⟩ :
          FlightBall).index []).getLastD 0 = 1
    from by decide]

theorem ballC_zero : ballC 0 = ⟨0, 1, 600, 160, 740, 520⟩ := by
  simp only [ballC, FlightBall.mk.injEq]
  norm_num

/-- The one-ball run after `k` bin-leg moves: delay counts down from
`49/2` while the ball covers the leg in 30px steps. -/
noncomputable def tC (k : ℕ) : State := tState [ballC k] (49 / 2 - k)

/-- A kept ball only replaces the in-flight list. -/
theorem advance_one_kept {s1 : State} {b b' : FlightBall}
    (hfl : s1.balls_in_flight = [b])
    (hpb : process_ball s1.n_rows s1.geom_n_rows s1.ball_paths s1.ball_speed b
      = .kept b') :
    advance_balls s1 = { s1 with balls_in_flight := [b'] } := by
  rw [advance_balls]
  dsimp only
  rw [hfl]
  simp only [step_balls, hpb]
  rw [if_neg (by
    intro hx
    simp at hx)]
  simp

/-- First tick after start: the admission branch resets the delay to
`max 1 (30 - 15·0.3) = 51/2` (no new ball: all dropped) and the ball
makes its first 30px move. -/
theorem tick_admit :
    update_animation (tState [⟨0, 0, 600, 120, 600, 160⟩] 0) =
      tState [⟨0, 0, 600, 150, 600, 160⟩] (51 / 2) := by
  rw [update_animation, if_neg (by decide),
    if_neg (show ¬ (0 < (tState [⟨0, 0, 600, 120, 600, 160⟩]
      0).delay_counter) from by norm_num [tState])]
  dsimp only
  rw [start_next_balls_id _ (by decide)]
  rw [show max 1 (30 - (tState [⟨0, 0, 600, 120, 600, 160⟩]
      0).ball_speed * (3 / 10)) = (51 / 2 : ℚ) from by
    rw [show (tState [⟨0, 0, 600, 120, 600, 160⟩] 0).ball_speed = (15 : ℚ)
      from rfl]
    norm_num [max_def]]
  rw [show ({tState [⟨0, 0, 600, 120, 600, 160⟩] 0 with
      delay_counter := (51 / 2 : ℚ)} : State)
        = tState [⟨0, 0, 600, 120, 600, 160⟩] (51 / 2) from by
    apply State.ext <;> rfl]
  rw [advance_one_kept rfl process_spawn_move]
  apply State.ext <;> rfl

/-- Second tick: the ball reaches the peg and turns onto the bin leg. -/
theorem tick_arrive :
    update_animation (tState [⟨0, 0, 600, 150, 600, 160⟩] (51 / 2)) = tC 0 := by
  rw [tick_one_ball_kept rfl rfl rfl
    (by norm_num [tState]) rfl process_peg_arrival]
  rw [tC, ballC_zero]
  apply State.ext <;> first | rfl | (dsimp only [tState]; push_cast; ring)

/-- Bin-leg ticks `k = 0..11`: plain 30px moves. -/
theorem tick_move (k : ℕ) (hk : k ≤ 11) :
    update_animation (tC k) = tC (k + 1) := by
  have hd : (0 : ℚ) < (tC k).delay_counter := by
    show (0 : ℚ) < 49 / 2 - (k : ℚ)
    have : (k : ℚ) ≤ 11 := by exact_mod_cast hk
    linarith
  rw [tick_one_ball_kept rfl rfl rfl hd rfl (process_leg_move k hk)]
  rw [tC, tC]
  apply State.ext <;> first | rfl | (dsimp only [tState]; push_cast; ring)

/-- The terminal state of the one-ball run: outcome 1 recorded, but the
observed statistics keep their start-time value 0 because
`1 % 5 ≠ 0` skipped the recompute. -/
noncomputable def tZ : State where
  n_balls := 1
  n_rows := 1
  probability := 1 / 2
  ball_speed := 15
  max_simultaneous_balls := 8
  plot_update_counter := 1
  plot_update_interval := 10
  ball_paths := [[1]]
  balls_in_flight := []
  balls_dropped := 1
  delay_counter := 49 / 2 - ((12 : ℕ) : ℚ) - 1
  ball_falling := false
  paused := false
  stopped := false
  positions := [1]
  bins_count := [0, 1]
  balls_completed := 1
  observed_mean := 0
  observed_std := 0
  theoretical_mean := 0
  theoretical_std := 0
  simulation_complete := true
  plot_needs_update := true
  geom_n_rows := 1
  slider_balls := 500
  slider_rows := 12
  slider_prob := 1 / 2
  slider_speed := 6
  slider_multi := 8

/-- The final tick: the ball snaps into bin 1, the outcome is recorded,
and completion is detected — with the observed mean still 0. -/
theorem tick_final : update_animation (tC 12) = tZ := by
  have hd : (0 : ℚ) < (tC 12).delay_counter := by
    show (0 : ℚ) < 49 / 2 - ((12 : ℕ) : ℚ)
    norm_num
  rw [update_animation, if_neg (by decide), if_pos hd]
  rw [show ({tC 12 with
      delay_counter := (tC 12).delay_counter - 1} : State)
        = tState [ballC 12] (49 / 2 - ((12 : ℕ) : ℚ) - 1) from by
    apply State.ext <;> rfl]
  rw [advance_balls]
  dsimp only [tState]
  simp only [step_balls, process_leg_finish]
  rw [record_outcome, if_pos (by decide : (1 : ℕ) < [0, 0].length)]
  dsimp only
  rw [if_neg (by decide : ¬ (0 + 1) % 5 = 0),
    if_neg (by decide : ¬ (0 + 1) % 5 = 0),
    if_neg (by decide : ¬ 10 ≤ 0 + 1),
    if_neg (by decide : ¬ 10 ≤ 0 + 1)]
  rw [if_pos ⟨by decide, rfl⟩]
  apply State.ext <;> rfl

/-- The full one-ball trace is reachable from `t0State`. -/
theorem reach_tC12 : Reach t0State (tC 12) := by
  have h0 : Reach t0State (tState [⟨0, 0, 600, 120, 600, 160⟩] 0) :=
    t_start ▸ Reach.start wRand
  have h1 : Reach t0State (tState [⟨0, 0, 600, 150, 600, 160⟩] (51 / 2)) :=
    tick_admit ▸ Reach.tick h0
  have h2 : Reach t0State (tC 0) := tick_arrive ▸ Reach.tick h1
  have hstep : ∀ k : ℕ, k ≤ 12 → Reach t0State (tC k) := by
    intro k
    induction k with
    | zero => intro _; exact h2
    | succ n ih =>
      intro hn
      exact tick_move n (by omega) ▸ Reach.tick (ih (by omega))
  exact hstep 12 (by omega)

/-- C8 as claimed: whenever a running tick completes the simulation, the
displayed statistics equal the mean/stddev of the full outcome list. -/
def c8_claim_prop : Prop :=
  ∀ (s0 s : State), 1 ≤ s0.n_rows → Reach s0 s → s.ball_falling = true →
    (update_animation s).simulation_complete = true →
    (update_animation s).observed_mean
        = list_mean (update_animation s).positions ∧
      (update_animation s).observed_std
        = list_std (update_animation s).positions

/-- **C8, counterexample.** In the one-ball run the single outcome is 1,
so the true mean is 1, but `balls_completed = 1` is not a multiple of 5
and the displayed mean keeps its start value 0. -/
theorem c8_counterexample : ¬ c8_claim_prop := by
  intro h
  have hc : (update_animation (tC 12)).simulation_complete = true := by
    rw [tick_final]
    rfl
  have hm := (h t0State (tC 12) (by decide) reach_tC12 rfl hc).1
  rw [tick_final] at hm
  rw [show tZ.observed_mean = (0 : ℝ) from rfl,
    show tZ.positions = [1] from rfl] at hm
  rw [show list_mean [1] = (1 : ℝ) from by rw [list_mean]; norm_num] at hm
  exact absurd hm (by norm_num)

end GaltonBoard
